import Mathlib

/-
  Verification development for the pdf2audiobook pipeline engine
  (checkpoint store, streaming scheduler, chunk synthesizer, reindexer).

  The Python sources are shallowly embedded:
  * Python dicts become association lists with first-match lookup,
    in-place update and append-on-new-key (insertion order preserved);
  * file contents and the persisted checkpoint JSON document become
    explicit values threaded through the functions;
  * external collaborators (the LLM cleaner, the chunker, the TTS engine,
    the audio stitcher, hashlib.sha256) become function parameters;
  * exceptions become Except results; code that catches them matches on
    the Except value.
-/

namespace Pdf2Audiobook

/-- Lookup in an association list: first binding wins (Python dict lookup;
the lists built here never hold duplicate keys). -/
def alGet {κ α : Type} [DecidableEq κ] : List (κ × α) → κ → Option α
  | [], _ => none
  | (k', v) :: rest, k => if k' = k then some v else alGet rest k

/-- Python dict assignment: update the binding in place if the key is
present, otherwise append a new binding at the end. -/
def alSet {κ α : Type} [DecidableEq κ] : List (κ × α) → κ → α → List (κ × α)
  | [], k, v => [(k, v)]
  | (k', v') :: rest, k, v =>
    if k' = k then (k, v) :: rest else (k', v') :: alSet rest k v

/-- Python dict key removal (dict.pop / del). -/
def alRemove {κ α : Type} [DecidableEq κ] : List (κ × α) → κ → List (κ × α)
  | [], _ => []
  | (k', v') :: rest, k =>
    if k' = k then alRemove rest k else (k', v') :: alRemove rest k

/-- Guarded move of one binding: d[dst] = d.pop(src) when src is present,
identity otherwise (also models "if src.exists(): src.rename(dst)"). -/
def alMove {κ α : Type} [DecidableEq κ] (d : List (κ × α)) (src dst : κ) :
    List (κ × α) :=
  match alGet d src with
  | some v => alSet (alRemove d src) dst v
  | none => d

/-! ## Checkpoint store (src/pdf2audiobook/checkpoint.py)

Chapter indices are Python ints used as dict keys via str(i); since str is
injective on the indices the engine produces, the embedding keys the
chapter map by the index itself. -/

/-- The stage names, in order (STAGES in checkpoint.py). -/
def STAGES : List String := ["parsed", "cleaned", "chunked", "synthesized"]

/-- Per-chapter stage flags (dataclass ChapterStatus). The field extra
models Python dynamic instance attributes: setattr with a name that is not
one of the four dataclass fields creates a fresh attribute on the instance,
and getattr reads it; dataclasses.asdict ignores such attributes. -/
structure ChapterStatus where
  parsed : Bool := false
  cleaned : Bool := false
  chunked : Bool := false
  synthesized : Bool := false
  extra : List (String × Bool) := []
  deriving Repr, DecidableEq

/-- getattr(status, stage, False). -/
def ChapterStatus.getStage (st : ChapterStatus) (stage : String) : Bool :=
  if stage = "parsed" then st.parsed
  else if stage = "cleaned" then st.cleaned
  else if stage = "chunked" then st.chunked
  else if stage = "synthesized" then st.synthesized
  else (alGet st.extra stage).getD false

/-- setattr(status, stage, True). -/
def ChapterStatus.setStage (st : ChapterStatus) (stage : String) : ChapterStatus :=
  if stage = "parsed" then { st with parsed := true }
  else if stage = "cleaned" then { st with cleaned := true }
  else if stage = "chunked" then { st with chunked := true }
  else if stage = "synthesized" then { st with synthesized := true }
  else { st with extra := alSet st.extra stage true }

/-- Image of a ChapterStatus under dataclasses.asdict: exactly the four
declared fields, dynamic attributes dropped. -/
structure ChapterStatusData where
  parsed : Bool
  cleaned : Bool
  chunked : Bool
  synthesized : Bool
  deriving Repr, DecidableEq

def ChapterStatus.asdict (st : ChapterStatus) : ChapterStatusData :=
  { parsed := st.parsed, cleaned := st.cleaned,
    chunked := st.chunked, synthesized := st.synthesized }

/-- ChapterStatus(**v) for a dict v with the four field keys. -/
def ChapterStatusData.toStatus (d : ChapterStatusData) : ChapterStatus :=
  { parsed := d.parsed, cleaned := d.cleaned,
    chunked := d.chunked, synthesized := d.synthesized, extra := [] }

/-- In-memory Checkpoint (dataclass Checkpoint). The _path field is
threaded explicitly where persistence matters; the _lock only serializes
mark, which the sequential embedding captures. -/
structure Checkpoint where
  pdf_path : String := ""
  pdf_hash : String := ""
  parser_used : String := ""
  total_chapters : Nat := 0
  chapters : List (Nat × ChapterStatus) := []
  deriving Repr, DecidableEq

/-- Checkpoint.mark: create the chapter record if absent, set the stage
flag, persist (the persisted image is Checkpoint.save of the result). -/
def Checkpoint.mark (cp : Checkpoint) (chapter_index : Nat) (stage : String) :
    Checkpoint :=
  let st := (alGet cp.chapters chapter_index).getD {}
  { cp with chapters := alSet cp.chapters chapter_index (st.setStage stage) }

/-- Checkpoint.is_done: pure read with getattr default False. -/
def Checkpoint.is_done (cp : Checkpoint) (chapter_index : Nat) (stage : String) :
    Bool :=
  match alGet cp.chapters chapter_index with
  | none => false
  | some st => st.getStage stage

/-- The JSON document Checkpoint.save writes (whole-document rewrite). -/
structure CheckpointData where
  pdf_path : String
  pdf_hash : String
  parser_used : String
  total_chapters : Nat
  chapters : List (Nat × ChapterStatusData)
  deriving Repr, DecidableEq

/-- Checkpoint.save: serialize the entire checkpoint. -/
def Checkpoint.save (cp : Checkpoint) : CheckpointData :=
  { pdf_path := cp.pdf_path, pdf_hash := cp.pdf_hash,
    parser_used := cp.parser_used, total_chapters := cp.total_chapters,
    chapters := cp.chapters.map (fun p => (p.1, p.2.asdict)) }

/-- The helper _hash_file: SHA-256 of the file's first 1MB, hex, truncated
to 16 characters. The composite sha256-hexdigest-prefix step is an
external primitive, embedded as the parameter sha256hex16; the structure
the code adds is that it is applied to f.read(1024 * 1024), the first
1024 * 1024 bytes only. -/
def _hash_file (sha256hex16 : List Nat → String) (contents : List Nat) :
    String :=
  sha256hex16 (contents.take (1024 * 1024))

/-- Checkpoint.load_or_create: reload the persisted checkpoint when its
stored fingerprint matches the source's fingerprint, else start fresh.
checkpoint_file is the current content of checkpoint_path (none when the
file does not exist); pdf_contents are the bytes of the file at pdf_path. -/
def Checkpoint.load_or_create (sha256hex16 : List Nat → String)
    (checkpoint_file : Option CheckpointData) (pdf_path : String)
    (pdf_contents : List Nat) : Checkpoint :=
  let pdf_hash := _hash_file sha256hex16 pdf_contents
  match checkpoint_file with
  | some data =>
    if data.pdf_hash = pdf_hash then
      { pdf_path := pdf_path, pdf_hash := pdf_hash,
        parser_used := data.parser_used,
        total_chapters := data.total_chapters,
        chapters := data.chapters.map (fun p => (p.1, p.2.toStatus)) }
    else
      { pdf_path := pdf_path, pdf_hash := pdf_hash }
  | none => { pdf_path := pdf_path, pdf_hash := pdf_hash }

/-! ## Streaming pipeline (src/pdf2audiobook/streaming.py) -/

/-- Python format f"{n:0Wd}" for a natural number: left-pad the decimal
representation with zeros up to the requested width. -/
def zfill (width : Nat) (n : Nat) : String :=
  let s := toString n
  if s.length < width then String.mk (List.replicate (width - s.length) '0') ++ s
  else s

/-- A structural unit within a parsed page (dataclass Section). -/
structure Section where
  type : String
  content : String
  level : Nat := 0
  page : Nat := 0
  deriving Repr, DecidableEq

/-- A chapter extracted from the PDF (dataclass Chapter). -/
structure Chapter where
  index : Nat
  title : String
  sections : List Section := []
  start_page : Nat := 0
  end_page : Nat := 0
  deriving Repr, DecidableEq

/-- Chapter.to_markdown. -/
def Chapter.to_markdown (ch : Chapter) : String :=
  String.intercalate "\n" (ch.sections.map (fun s =>
    if s.type = "heading" then
      String.mk (List.replicate (max 1 s.level) '#') ++ " " ++ s.content ++ "\n"
    else if s.type = "body" then s.content ++ "\n"
    else if s.type = "footnote" then "> [footnote] " ++ s.content ++ "\n"
    else if s.type = "figure_caption" then "*[figure] " ++ s.content ++ "*\n"
    else if s.type = "table" then
      "<!-- table -->\n" ++ s.content ++ "\n<!-- /table -->\n"
    else s.content ++ "\n"))

/-- Result of processing one chapter (dataclass ChapterResult). -/
structure ChapterResult where
  index : Nat
  cleaned_path : Option String := none
  chunk_path : Option String := none
  audio_path : Option String := none
  error : Option String := none
  deriving Repr, DecidableEq

/-- The clean block of StreamingPipeline._process_chapter: invoke
clean_one_chapter unless the checkpoint says the stage is done, in which
case the expected artifact path is reconstructed. Returns the checkpoint,
the list of stage functions invoked, and the cleaned-text path or the
raised error. -/
def cleanStage (clean_one_chapter : Chapter → Except String String)
    (output_dir : String) (cp : Checkpoint) (chapter : Chapter) :
    Checkpoint × List String × Except String String :=
  if cp.is_done chapter.index "cleaned" then
    (cp, [],
      Except.ok (output_dir ++ "/cleaned/chapter_" ++ zfill 3 chapter.index ++ ".txt"))
  else
    match clean_one_chapter chapter with
    | Except.ok p => (cp.mark chapter.index "cleaned", ["cleaned"], Except.ok p)
    | Except.error e => (cp, ["cleaned"], Except.error e)

/-- The chunk block of StreamingPipeline._process_chapter. -/
def chunkStage (chunk_one_chapter : Nat → String → String → Except String String)
    (output_dir : String) (cp : Checkpoint) (chapter : Chapter)
    (cleaned_path : String) :
    Checkpoint × List String × Except String String :=
  if cp.is_done chapter.index "chunked" then
    (cp, [],
      Except.ok (output_dir ++ "/chunks/chapter_" ++ zfill 3 chapter.index ++ ".json"))
  else
    match chunk_one_chapter chapter.index cleaned_path chapter.title with
    | Except.ok p => (cp.mark chapter.index "chunked", ["chunked"], Except.ok p)
    | Except.error e => (cp, ["chunked"], Except.error e)

/-- The synthesize block of StreamingPipeline._process_chapter (the
synthesize_one_chapter call is wrapped in the global synth lock; the lock
itself is treated in the concurrency analysis further below). -/
def synthStage (synthesize_chapter : Nat → String → Except String String)
    (output_dir : String) (cp : Checkpoint) (chapter : Chapter)
    (chunk_path : String) :
    Checkpoint × List String × Except String String :=
  if cp.is_done chapter.index "synthesized" then
    (cp, [],
      Except.ok (output_dir ++ "/audio/chapter_" ++ zfill 3 chapter.index ++ ".mp3"))
  else
    match synthesize_chapter chapter.index chunk_path with
    | Except.ok p =>
      (cp.mark chapter.index "synthesized", ["synthesized"], Except.ok p)
    | Except.error e => (cp, ["synthesized"], Except.error e)

/-- StreamingPipeline._process_chapter: run clean, chunk, synth in order
for one chapter, consulting the checkpoint before each stage and marking
it after; a stage already marked done is skipped and its artifact path is
reconstructed instead. The three stage collaborators are parameters; the
returned list records which stage functions were invoked, in order, and
the Except carries a raised exception out of the function. Mutations the
checkpoint saw before a raise are kept, as in Python. -/
def _process_chapter
    (clean_one_chapter : Chapter → Except String String)
    (chunk_one_chapter : Nat → String → String → Except String String)
    (synthesize_chapter : Nat → String → Except String String)
    (output_dir : String) (cp : Checkpoint) (chapter : Chapter) :
    Checkpoint × List String × Except String ChapterResult :=
  let c := cleanStage clean_one_chapter output_dir cp chapter
  match c.2.2 with
  | Except.error e => (c.1, c.2.1, Except.error e)
  | Except.ok cleaned_path =>
    let k := chunkStage chunk_one_chapter output_dir c.1 chapter cleaned_path
    match k.2.2 with
    | Except.error e => (k.1, c.2.1 ++ k.2.1, Except.error e)
    | Except.ok chunk_path =>
      let y := synthStage synthesize_chapter output_dir k.1 chapter chunk_path
      match y.2.2 with
      | Except.error e => (y.1, c.2.1 ++ k.2.1 ++ y.2.1, Except.error e)
      | Except.ok audio_path =>
        (y.1, c.2.1 ++ k.2.1 ++ y.2.1,
          Except.ok { index := chapter.index, cleaned_path := some cleaned_path,
                      chunk_path := some chunk_path,
                      audio_path := some audio_path, error := none })

/-- The ChapterResult StreamingPipeline.run stores for one chapter: the
worker's result on normal return, or ChapterResult(index, error=str(e))
when processing raised. -/
def processOutcome
    (clean_one_chapter : Chapter → Except String String)
    (chunk_one_chapter : Nat → String → String → Except String String)
    (synthesize_chapter : Nat → String → Except String String)
    (output_dir : String) (cp : Checkpoint) (chapter : Chapter) :
    ChapterResult :=
  match (_process_chapter clean_one_chapter chunk_one_chapter
      synthesize_chapter output_dir cp chapter).2.2 with
  | Except.ok r => r
  | Except.error e => { index := chapter.index, error := some e }

/-- One drain step of StreamingPipeline.run: process a chapter, catch any
exception at the unit boundary and store it as data in the result map. -/
def runStep
    (clean_one_chapter : Chapter → Except String String)
    (chunk_one_chapter : Nat → String → String → Except String String)
    (synthesize_chapter : Nat → String → Except String String)
    (output_dir : String)
    (acc : Checkpoint × List (Nat × ChapterResult)) (chapter : Chapter) :
    Checkpoint × List (Nat × ChapterResult) :=
  let step := _process_chapter clean_one_chapter chunk_one_chapter
    synthesize_chapter output_dir acc.1 chapter
  match step.2.2 with
  | Except.ok r => (step.1, alSet acc.2 chapter.index r)
  | Except.error e =>
    (step.1, alSet acc.2 chapter.index { index := chapter.index, error := some e })

/-- StreamingPipeline.run: submit every chapter, collect a ChapterResult
per index; per-chapter failures are isolated and never raise out of run.
The thread pool's completion interleaving only affects when a worker
marks the shared checkpoint; the embedding fixes submission order, which
realizes one legal schedule. -/
def run
    (clean_one_chapter : Chapter → Except String String)
    (chunk_one_chapter : Nat → String → String → Except String String)
    (synthesize_chapter : Nat → String → Except String String)
    (output_dir : String) (chapters : List Chapter) (cp : Checkpoint) :
    Checkpoint × List (Nat × ChapterResult) :=
  chapters.foldl
    (runStep clean_one_chapter chunk_one_chapter synthesize_chapter output_dir)
    (cp, [])

/-- Concrete stand-in for the sha256-hexdigest-prefix primitive, used by
the sample instances below. -/
def sampleHash : List Nat → String := fun l => toString l.length

/-- A persisted checkpoint document whose fingerprint matches sampleHash
applied to the one-byte source below. -/
def sampleDataM : CheckpointData :=
  { pdf_path := "", pdf_hash := "1", parser_used := "p", total_chapters := 3,
    chapters := [] }

/-- A persisted checkpoint document with a mismatched fingerprint. -/
def sampleDataX : CheckpointData :=
  { pdf_path := "", pdf_hash := "x", parser_used := "", total_chapters := 0,
    chapters := [] }

/-- A checkpoint with chapter 0 already marked parsed. -/
def sampleParsedCp : Checkpoint := { chapters := [(0, { parsed := true })] }

/-- A checkpoint with a single default status record. -/
def sampleFreshCp : Checkpoint := { chapters := [(0, {})] }

/-- A checkpoint where chapter 1 is done for cleaned, chunked and
synthesized. -/
def sampleDoneCp : Checkpoint :=
  { chapters := [(1, { cleaned := true, chunked := true, synthesized := true })] }

/-- A sample chapter record. -/
def sampleChapter : Chapter := { index := 1, title := "Ch" }

/-- Stage collaborators that fail if invoked; they let the skip theorems
exhibit that no stage function runs. -/
def failingClean : Chapter → Except String String :=
  fun _ => Except.error "no clean"

def failingChunk : Nat → String → String → Except String String :=
  fun _ _ _ => Except.error "no chunk"

def failingSynth : Nat → String → Except String String :=
  fun _ _ => Except.error "no synth"

/-! ## Chunk synthesizer (src/pdf2audiobook/synth/synthesizer.py) -/

/-- Metadata for one text chunk (dataclass ChunkMeta in models.py). -/
structure ChunkMeta where
  text : String
  chapter_index : Nat
  paragraph_index : Nat
  sentence_index : Nat
  is_paragraph_end : Bool := false
  is_chapter_end : Bool := false
  deriving Repr, DecidableEq

/-- All chunks of one chapter (dataclass ChapterChunks in models.py);
ChapterChunks.from_json on the chunk file is modelled by passing the
decoded value directly. -/
structure ChapterChunks where
  chapter_index : Nat
  chapter_title : String
  chunks : List ChunkMeta := []
  deriving Repr, DecidableEq

/-- The helper _get_worker_count: explicit configuration wins, API
engines default to 8 threads, local engines to min(cpu count or 1, 4). -/
def _get_worker_count (parallel_workers : Int) (tts_engine : String)
    (cpu_count : Option Nat) : Nat :=
  if 0 < parallel_workers then parallel_workers.toNat
  else if tts_engine = "openai" || tts_engine = "elevenlabs" then 8
  else
    min (match cpu_count with
          | none => 1
          | some 0 => 1
          | some c => c) 4

/-- Path of the per-chunk wav artifact: chunk_audio_dir / chunk_NNNN.wav. -/
def chunkWavPath (chunk_audio_dir : String) (i : Nat) : String :=
  chunk_audio_dir ++ "/chunk_" ++ zfill 4 i ++ ".wav"

def exceptOk {ε α : Type} : Except ε α → Bool
  | Except.ok _ => true
  | Except.error _ => false

/-- One invocation of engine.synthesize during chunk dispatch, tagged
with its dispatch batch: calls submitted to the same ThreadPoolExecutor
instance share a batch and run on up to pool_workers threads; the
sequential for-loop gives every call its own batch with one worker. -/
structure EngineCall where
  wav_path : String
  batch : Nat
  pool_workers : Nat
  deriving Repr, DecidableEq

/-- Two engine.synthesize invocations can be in flight at the same time
iff they are distinct calls of one dispatch batch whose pool runs at
least two worker threads (the documented ThreadPoolExecutor semantics). -/
def mayOverlap (c1 c2 : EngineCall) : Bool :=
  c1.batch == c2.batch && c1.wav_path != c2.wav_path
    && decide (2 ≤ c1.pool_workers)

/-- The work_items loop of synthesize_one_chapter / synthesize_all: the
enumerated chunks whose wav artifact does not already exist. -/
def pendingChunks (wav_exists : String → Bool) (chunk_audio_dir : String)
    (chunks : List ChunkMeta) : List (Nat × ChunkMeta) :=
  chunks.enum.filter fun p => ! wav_exists (chunkWavPath chunk_audio_dir p.1)

/-- The engine.synthesize invocations made for the given work items:
workers ≤ 1 runs them one by one on the calling thread (each its own
batch), otherwise all are submitted to one pool of that many workers. -/
def engineCallsOf (workers : Nat) (chunk_audio_dir : String)
    (work_items : List (Nat × ChunkMeta)) : List EngineCall :=
  if workers ≤ 1 then
    work_items.enum.map fun q =>
      { wav_path := chunkWavPath chunk_audio_dir q.2.1, batch := q.1,
        pool_workers := 1 }
  else
    work_items.map fun p =>
      { wav_path := chunkWavPath chunk_audio_dir p.1, batch := 0,
        pool_workers := workers }

deriving instance DecidableEq for Except

/-- Result of synthesize_one_chapter: the returned chapter mp3 path or
the raised error, the engine invocations made, and, when stitch_chapter
ran, the wav artifacts present for it to concatenate (stitch_chapter
skips missing files). -/
structure SynthOutcome where
  result : Except String String
  engine_calls : List EngineCall
  stitched : Option (List String)
  deriving Repr, DecidableEq

/-- synthesize_one_chapter: empty chapters return their mp3 path at once;
otherwise chunks without an existing wav are synthesized (sequentially
when workers is at most 1, else via one pool of that many threads, with
workers the _get_worker_count value for the configuration), a
RuntimeError is raised iff there were work items and every one of them
failed, and otherwise the chapter is stitched from the wav files present
after synthesis. engine.synthesize is modelled as writing its wav exactly
when it returns success. -/
def synthesize_one_chapter
    (engine_synthesize : String → String → Except String Unit)
    (wav_exists : String → Bool) (workers : Nat) (ch_idx : Nat)
    (chapter_chunks : ChapterChunks) (audio_dir : String) : SynthOutcome :=
  let chapter_mp3 := audio_dir ++ "/chapter_" ++ zfill 3 ch_idx ++ ".mp3"
  if chapter_chunks.chunks.isEmpty then
    { result := Except.ok chapter_mp3, engine_calls := [], stitched := none }
  else
    let chunk_audio_dir := audio_dir ++ "/chapter_" ++ zfill 3 ch_idx
    let work_items := pendingChunks wav_exists chunk_audio_dir
      chapter_chunks.chunks
    let synth_errors := (work_items.filter fun p =>
      ! exceptOk (engine_synthesize p.2.text
        (chunkWavPath chunk_audio_dir p.1))).length
    if ! work_items.isEmpty && synth_errors == work_items.length then
      { result := Except.error ("All " ++ toString synth_errors
          ++ " chunks failed for chapter " ++ toString ch_idx),
        engine_calls := engineCallsOf workers chunk_audio_dir work_items,
        stitched := none }
    else
      { result := Except.ok chapter_mp3,
        engine_calls := engineCallsOf workers chunk_audio_dir work_items,
        stitched := some ((chapter_chunks.chunks.enum.filter fun p =>
          wav_exists (chunkWavPath chunk_audio_dir p.1)
            || exceptOk (engine_synthesize p.2.text
              (chunkWavPath chunk_audio_dir p.1))).map
          fun p => chunkWavPath chunk_audio_dir p.1) }

/-- Accumulated state of the synthesize_all loop over all chapters. -/
structure SynthAllState where
  checkpoint : Checkpoint
  engine_calls : List EngineCall
  stitched_chapters : List Nat
  deriving Repr, DecidableEq

/-- One iteration of synthesize_all's chapter loop: an empty chapter is
marked synthesized and skipped; a chapter already marked synthesized is
skipped; otherwise the missing chunks are synthesized (failures are
logged, never escalated here), the chapter is stitched and marked. -/
def synthAllStep (wav_exists : String → Bool) (workers : Nat)
    (audio_dir : String) (st : SynthAllState) (p : Nat × ChapterChunks) :
    SynthAllState :=
  if p.2.chunks.isEmpty then
    { st with checkpoint := st.checkpoint.mark p.1 "synthesized" }
  else if st.checkpoint.is_done p.1 "synthesized" then st
  else
    { checkpoint := st.checkpoint.mark p.1 "synthesized",
      engine_calls := st.engine_calls
        ++ engineCallsOf workers (audio_dir ++ "/chapter_" ++ zfill 3 p.1)
          (pendingChunks wav_exists
            (audio_dir ++ "/chapter_" ++ zfill 3 p.1) p.2.chunks),
      stitched_chapters := st.stitched_chapters ++ [p.1] }

/-- synthesize_all's chapter loop (the final m4b/mp3 assembly delegates
to the stitcher collaborator and is outside the loop). -/
def synthesize_all (wav_exists : String → Bool) (workers : Nat)
    (audio_dir : String) (chunk_list : List ChapterChunks)
    (cp : Checkpoint) : SynthAllState :=
  chunk_list.enum.foldl (synthAllStep wav_exists workers audio_dir)
    { checkpoint := cp, engine_calls := [], stitched_chapters := [] }

/-- Sample chunk metadata for concrete instances. -/
def sampleChunk (i : Nat) : ChunkMeta :=
  { text := "c" ++ toString i, chapter_index := 0, paragraph_index := 0,
    sentence_index := i }

/-- A two-chunk chapter. -/
def ccTwo : ChapterChunks :=
  { chapter_index := 0, chapter_title := "T",
    chunks := [sampleChunk 0, sampleChunk 1] }

/-- An empty chapter (all its content was stripped). -/
def ccEmpty : ChapterChunks := { chapter_index := 7, chapter_title := "refs" }

/-- An engine whose every synthesize call fails. -/
def engineBoom : String → String → Except String Unit :=
  fun _ _ => Except.error "boom"

/-- An engine whose every synthesize call succeeds. -/
def engineFine : String → String → Except String Unit :=
  fun _ _ => Except.ok ()

/-- A filesystem on which only chapter 0's chunk 0 wav already exists
(left over from a previous, interrupted run). -/
def wavZeroExists : String → Bool :=
  fun p => p == "audio/chapter_000/chunk_0000.wav"

/-- A filesystem with no chunk wav present. -/
def wavNone : String → Bool := fun _ => false

/-! ## Reindexer (src/pdf2audiobook/summary.py)

Artifact files live under output_dir in the parsed, cleaned, chunks and
audio subdirectories; the embedding keys each artifact by the triple
(subdirectory, chapter index, kind), where kind is the file extension
(".md", ".json", ".txt", ".mp3") or "" for the chapter's chunk wav
directory under audio. The zero-padded rendering chapter_NNN is injective
on indices, so the triple determines the Python path relative to
output_dir and distinct triples are distinct paths. -/

/-- Python's for i in range(count - 1, -1, -1): descLoop step s count
applies step at count - 1, then count - 2, ..., then 0. -/
def descLoop {σ : Type} (step : σ → Nat → σ) (s : σ) : Nat → σ
  | 0 => s
  | n + 1 => descLoop step (step s n) n

/-- The output directory tree: artifact key to file contents. -/
abbrev FileSystem := List ((String × Nat × String) × String)

/-- Python "if src.exists(): src.rename(dst)". -/
def fsRename (fs : FileSystem) (src dst : String × Nat × String) :
    FileSystem :=
  alMove fs src dst

/-- Read-modify-write of one file in place, when it exists. -/
def fsUpdate (fs : FileSystem) (k : String × Nat × String)
    (f : String → String) : FileSystem :=
  match alGet fs k with
  | some contents => alSet fs k (f contents)
  | none => fs

/-- The inner loop of _shift_chapter_files for one storage directory:
rename chapter_i to chapter_{i+1} for every listed artifact kind. -/
def shiftExtStep (d : String) : List String → FileSystem → Nat → FileSystem
  | [], fs, _ => fs
  | ext :: rest, fs, i =>
    shiftExtStep d rest (fsRename fs (d, i, ext) (d, i + 1, ext)) i

/-- _shift_chapter_files: for parsed (.md, .json), cleaned (.txt), chunks
(.json) and audio (chapter mp3, then chunk wav directory), rename every
chapter artifact in descending index order so indices shift by +1. -/
def _shift_chapter_files (count : Nat) (fs : FileSystem) : FileSystem :=
  let fs1 := descLoop (fun f i => shiftExtStep "parsed" [".md", ".json"] f i)
    fs count
  let fs2 := descLoop (fun f i => shiftExtStep "cleaned" [".txt"] f i)
    fs1 count
  let fs3 := descLoop (fun f i => shiftExtStep "chunks" [".json"] f i)
    fs2 count
  descLoop (fun f i => shiftExtStep "audio" [".mp3", ""] f i) fs3 count

/-- _shift_checkpoint_entries: move every chapter status entry from key i
to key i + 1, in descending order. -/
def _shift_checkpoint_entries (cp : Checkpoint) (count : Nat) : Checkpoint :=
  { cp with
    chapters := descLoop (fun d i => alMove d i (i + 1)) cp.chapters count }

/-- _update_parsed_json_indices: rewrite the index field stored inside
parsed/chapter_i.json for i = 1 .. old_count; the json-decode, set
index := i, json-encode round trip is the collaborator updIndex. -/
def _update_parsed_json_indices (updIndex : Nat → String → String)
    (fs : FileSystem) : Nat → FileSystem
  | 0 => fs
  | n + 1 =>
    fsUpdate (_update_parsed_json_indices updIndex fs n)
      ("parsed", n + 1, ".json") (updIndex (n + 1))

/-- Python "not summary_text.strip()": the text strips to the empty
string exactly when every character is whitespace. -/
def isBlank (s : String) : Bool :=
  s.toList.all Char.isWhitespace

/-- The resume guard of generate_and_inject_summary: the unit at index 0
already carries the sentinel title. -/
def summaryAlready (chapters : List Chapter) : Bool :=
  match chapters with
  | [] => false
  | ch0 :: _ => ch0.title == "Executive Summary"

/-- The summary chapter materialized at index 0. -/
def summaryChapter (summary_text : String) : Chapter :=
  { index := 0, title := "Executive Summary",
    sections := [{ type := "body", content := summary_text }] }

/-- generate_and_inject_summary, with the generated summary text and the
chapter json serializer as collaborator parameters: a no-op when the
first chapter already is the sentinel summary or the summary text is
blank; otherwise artifact files, checkpoint entries and chapter objects
are shifted by +1 (files and entries in descending order), the parsed
json index fields are rewritten, the summary chapter is materialized at
index 0 with its parsed and cleaned artifacts, marked parsed and cleaned,
and the chapter count is bumped and persisted. -/
def generate_and_inject_summary (summary_text : String)
    (chapterJson : Chapter → String) (updIndex : Nat → String → String)
    (chapters : List Chapter) (cp : Checkpoint) (fs : FileSystem) :
    List Chapter × Checkpoint × FileSystem :=
  if summaryAlready chapters then (chapters, cp, fs)
  else if isBlank summary_text then (chapters, cp, fs)
  else
    let old_count := chapters.length
    let fs1 := _shift_chapter_files old_count fs
    let cp1 := _shift_checkpoint_entries cp old_count
    let chapters2 := chapters.map fun ch => { ch with index := ch.index + 1 }
    let fs2 := _update_parsed_json_indices updIndex fs1 old_count
    let summary_ch := summaryChapter summary_text
    let fs3 := alSet fs2 ("parsed", 0, ".md") summary_ch.to_markdown
    let fs4 := alSet fs3 ("parsed", 0, ".json") (chapterJson summary_ch)
    let fs5 := alSet fs4 ("cleaned", 0, ".txt") summary_text
    let cp2 := (cp1.mark 0 "parsed").mark 0 "cleaned"
    let cp3 := { cp2 with total_chapters := old_count + 1 }
    (summary_ch :: chapters2, cp3, fs5)

/-- A one-chapter run for the reindexer sample. -/
def sampleChapters5 : List Chapter := [{ index := 0, title := "Intro" }]

/-- A status with every stage done. -/
def sampleStatusAll : ChapterStatus :=
  { parsed := true, cleaned := true, chunked := true, synthesized := true }

/-- Its fully marked checkpoint. -/
def sampleCp5 : Checkpoint := { chapters := [(0, sampleStatusAll)] }

/-- Its artifacts: one cleaned text file. -/
def sampleFs5 : FileSystem := [(("cleaned", 0, ".txt"), "body")]

/-- Concrete serializer sample. -/
def sampleJson : Chapter → String := fun ch => ch.title

/-- Concrete index-rewriting sample. -/
def sampleUpd : Nat → String → String := fun _ s => s

theorem alGet_alSet_self {κ α : Type} [DecidableEq κ]
    (d : List (κ × α)) (k : κ) (v : α) : alGet (alSet d k v) k = some v := by
  induction d with
  | nil => simp [alSet, alGet]
  | cons p rest ih =>
    by_cases h : p.1 = k
    · simp [alSet, alGet, h]
    · simp [alSet, alGet, h, ih]

theorem alGet_alSet_ne {κ α : Type} [DecidableEq κ]
    (d : List (κ × α)) (k k' : κ) (v : α) (h : k ≠ k') :
    alGet (alSet d k v) k' = alGet d k' := by
  induction d with
  | nil => simp [alSet, alGet, h]
  | cons p rest ih =>
    by_cases hp : p.1 = k
    · simp [alSet, alGet, hp, h]
    · simp [alSet, alGet, hp, ih]

theorem alGet_alRemove_self {κ α : Type} [DecidableEq κ]
    (d : List (κ × α)) (k : κ) : alGet (alRemove d k) k = none := by
  induction d with
  | nil => simp [alRemove, alGet]
  | cons p rest ih =>
    by_cases hp : p.1 = k
    · simp [alRemove, hp, ih]
    · simp [alRemove, alGet, hp, ih]

theorem alGet_alRemove_ne {κ α : Type} [DecidableEq κ]
    (d : List (κ × α)) (k k' : κ) (h : k ≠ k') :
    alGet (alRemove d k) k' = alGet d k' := by
  induction d with
  | nil => simp [alRemove]
  | cons p rest ih =>
    by_cases hp : p.1 = k
    · simp [alRemove, alGet, hp, h, ih]
    · simp [alRemove, alGet, hp, ih]

theorem alGet_alMove_dst {κ α : Type} [DecidableEq κ]
    (d : List (κ × α)) (src dst : κ)
    (hdst : alGet d dst = none) :
    alGet (alMove d src dst) dst = alGet d src := by
  unfold alMove
  cases h : alGet d src with
  | some v => simp [alGet_alSet_self]
  | none => simp [hdst]

theorem alGet_alMove_src {κ α : Type} [DecidableEq κ]
    (d : List (κ × α)) (src dst : κ) (hne : src ≠ dst) :
    alGet (alMove d src dst) src = none := by
  unfold alMove
  cases h : alGet d src with
  | some v => rw [alGet_alSet_ne _ _ _ _ (Ne.symm hne), alGet_alRemove_self]
  | none => exact h

theorem alGet_alMove_other {κ α : Type} [DecidableEq κ]
    (d : List (κ × α)) (src dst k : κ) (h1 : k ≠ src) (h2 : k ≠ dst) :
    alGet (alMove d src dst) k = alGet d k := by
  unfold alMove
  cases hs : alGet d src with
  | some v =>
    rw [alGet_alSet_ne _ _ _ _ (Ne.symm h2), alGet_alRemove_ne _ _ _ (Ne.symm h1)]
  | none => rfl

theorem alGet_map {κ α β : Type} [DecidableEq κ]
    (f : α → β) (d : List (κ × α)) (k : κ) :
    alGet (d.map (fun p => (p.1, f p.2))) k = (alGet d k).map f := by
  induction d with
  | nil => simp [alGet]
  | cons p rest ih =>
    by_cases hp : p.1 = k
    · simp [alGet, hp]
    · simp [alGet, hp, ih]

theorem getStage_default (s : String) :
    ChapterStatus.getStage {} s = false := by
  unfold ChapterStatus.getStage
  split_ifs <;> rfl

theorem getStage_setStage (st : ChapterStatus) (s t : String) :
    (st.setStage t).getStage s = if s = t then true else st.getStage s := by
  by_cases hst : s = t
  · subst hst
    rw [if_pos rfl]
    unfold ChapterStatus.setStage
    split_ifs <;> simp_all [ChapterStatus.getStage, alGet_alSet_self]
  · rw [if_neg hst]
    unfold ChapterStatus.setStage
    split_ifs <;>
      (unfold ChapterStatus.getStage
       split_ifs <;>
         first
           | rfl
           | (rw [alGet_alSet_ne st.extra t s true (fun h => hst h.symm)])
           | simp_all)

theorem is_done_mark (cp : Checkpoint) (i j : Nat) (s t : String) :
    (cp.mark j t).is_done i s =
      if i = j ∧ s = t then true else cp.is_done i s := by
  unfold Checkpoint.mark Checkpoint.is_done
  by_cases hij : i = j
  · subst hij
    cases h : alGet cp.chapters i with
    | none =>
      by_cases hst : s = t <;>
        simp [h, hst, alGet_alSet_self, getStage_setStage, getStage_default]
    | some st =>
      by_cases hst : s = t <;>
        simp [h, hst, alGet_alSet_self, getStage_setStage]
  · rw [alGet_alSet_ne cp.chapters j i _ (fun h => hij h.symm)]
    simp [hij]

/-- Monotonicity of a single mark call on the whole flag table. -/
theorem is_done_mark_mono (cp : Checkpoint) (i j : Nat) (s t : String)
    (h : cp.is_done i s = true) : (cp.mark j t).is_done i s = true := by
  rw [is_done_mark]
  split_ifs <;> simp [h]

/-- Marking never touches any metadata field of the checkpoint. -/
theorem mark_fields (cp : Checkpoint) (i : Nat) (s : String) :
    (cp.mark i s).pdf_path = cp.pdf_path ∧
    (cp.mark i s).pdf_hash = cp.pdf_hash ∧
    (cp.mark i s).parser_used = cp.parser_used ∧
    (cp.mark i s).total_chapters = cp.total_chapters := by
  simp [Checkpoint.mark]

/-- The four declared flags survive the asdict / ChapterStatus(**v)
round trip; only dynamic attributes are dropped. -/
theorem getStage_roundtrip (st : ChapterStatus) (s : String) (hs : s ∈ STAGES) :
    st.asdict.toStatus.getStage s = st.getStage s := by
  simp only [STAGES, List.mem_cons, List.mem_singleton] at hs
  rcases hs with h | h | h | h | h <;>
    first
      | (subst h
         simp [ChapterStatus.asdict, ChapterStatusData.toStatus,
           ChapterStatus.getStage])
      | cases h

theorem alGet_mem {κ α : Type} [DecidableEq κ]
    (d : List (κ × α)) (k : κ) (v : α) (h : alGet d k = some v) : (k, v) ∈ d := by
  induction d with
  | nil => cases h
  | cons p rest ih =>
    by_cases hp : p.1 = k
    · rw [alGet, if_pos hp] at h
      obtain ⟨k1, v1⟩ := p
      cases hp
      injection h with hv
      cases hv
      exact List.mem_cons_self _ _
    · rw [alGet, if_neg hp] at h
      exact List.mem_cons_of_mem _ (ih h)

theorem cleanStage_is_done_mono (f : Chapter → Except String String)
    (output_dir : String) (cp : Checkpoint) (chapter : Chapter)
    (i : Nat) (s : String) (h : cp.is_done i s = true) :
    ((cleanStage f output_dir cp chapter).1).is_done i s = true := by
  unfold cleanStage
  split_ifs
  · exact h
  · cases f chapter
    · exact h
    · exact is_done_mark_mono cp i chapter.index s "cleaned" h

theorem chunkStage_is_done_mono
    (f : Nat → String → String → Except String String)
    (output_dir : String) (cp : Checkpoint) (chapter : Chapter) (cleaned : String)
    (i : Nat) (s : String) (h : cp.is_done i s = true) :
    ((chunkStage f output_dir cp chapter cleaned).1).is_done i s = true := by
  unfold chunkStage
  split_ifs
  · exact h
  · cases f chapter.index cleaned chapter.title
    · exact h
    · exact is_done_mark_mono cp i chapter.index s "chunked" h

theorem synthStage_is_done_mono (f : Nat → String → Except String String)
    (output_dir : String) (cp : Checkpoint) (chapter : Chapter) (chunkp : String)
    (i : Nat) (s : String) (h : cp.is_done i s = true) :
    ((synthStage f output_dir cp chapter chunkp).1).is_done i s = true := by
  unfold synthStage
  split_ifs
  · exact h
  · cases f chapter.index chunkp
    · exact h
    · exact is_done_mark_mono cp i chapter.index s "synthesized" h

theorem process_chapter_is_done_mono
    (clean_one_chapter : Chapter → Except String String)
    (chunk_one_chapter : Nat → String → String → Except String String)
    (synthesize_chapter : Nat → String → Except String String)
    (output_dir : String) (cp : Checkpoint) (chapter : Chapter)
    (i : Nat) (s : String) (h : cp.is_done i s = true) :
    ((_process_chapter clean_one_chapter chunk_one_chapter synthesize_chapter
        output_dir cp chapter).1).is_done i s = true := by
  unfold _process_chapter
  dsimp only
  have hc := cleanStage_is_done_mono clean_one_chapter output_dir cp chapter i s h
  cases (cleanStage clean_one_chapter output_dir cp chapter).2.2 with
  | error e => exact hc
  | ok cleaned_path =>
    dsimp only
    have hk := chunkStage_is_done_mono chunk_one_chapter output_dir _ chapter
      cleaned_path i s hc
    cases (chunkStage chunk_one_chapter output_dir
        (cleanStage clean_one_chapter output_dir cp chapter).1 chapter
        cleaned_path).2.2 with
    | error e => exact hk
    | ok chunk_path =>
      dsimp only
      have hy := synthStage_is_done_mono synthesize_chapter output_dir _ chapter
        chunk_path i s hk
      cases (synthStage synthesize_chapter output_dir
          (chunkStage chunk_one_chapter output_dir
            (cleanStage clean_one_chapter output_dir cp chapter).1 chapter
            cleaned_path).1 chapter chunk_path).2.2 with
      | error e => exact hy
      | ok audio_path => exact hy

/-- Reloading a saved checkpoint against a source with the matching
fingerprint restores every declared stage flag. -/
theorem is_done_save_reload (sha256hex16 : List Nat → String) (cp : Checkpoint)
    (pdf_path : String) (pdf_contents : List Nat)
    (hhash : cp.pdf_hash = _hash_file sha256hex16 pdf_contents)
    (i : Nat) (s : String) (hs : s ∈ STAGES) :
    (Checkpoint.load_or_create sha256hex16 (some cp.save) pdf_path
        pdf_contents).is_done i s = cp.is_done i s := by
  unfold Checkpoint.load_or_create
  have hcond : cp.save.pdf_hash = _hash_file sha256hex16 pdf_contents := hhash
  simp only [hcond, if_true, if_pos rfl]
  unfold Checkpoint.is_done
  have hmap : (cp.save.chapters.map (fun p => (p.1, p.2.toStatus))) =
      cp.chapters.map (fun p => (p.1, p.2.asdict.toStatus)) := by
    simp [Checkpoint.save, List.map_map, Function.comp]
  rw [hmap, alGet_map (fun v => v.asdict.toStatus) cp.chapters i]
  cases h : alGet cp.chapters i with
  | none => rfl
  | some st => exact getStage_roundtrip st s hs

/-- C2: for every checkpoint created by load_or_create, every chapter
index and every declared stage, after mark the flag reads true, both in
memory and after persisting the whole checkpoint and reloading it via
load_or_create against the unchanged source. -/
theorem mark_is_done_roundtrip
    (sha256hex16 : List Nat → String) (checkpoint_file : Option CheckpointData)
    (pdf_path : String) (pdf_contents : List Nat)
    (i : Nat) (s : String) (hs : s ∈ STAGES) :
    ((Checkpoint.load_or_create sha256hex16 checkpoint_file pdf_path
        pdf_contents).mark i s).is_done i s = true ∧
    (Checkpoint.load_or_create sha256hex16
        (some ((Checkpoint.load_or_create sha256hex16 checkpoint_file pdf_path
          pdf_contents).mark i s).save) pdf_path pdf_contents).is_done i s
      = true := by
  set cp := Checkpoint.load_or_create sha256hex16 checkpoint_file pdf_path
    pdf_contents with hcp
  have hmarked : (cp.mark i s).is_done i s = true := by
    rw [is_done_mark]
    simp
  refine ⟨hmarked, ?_⟩
  have hhash : (cp.mark i s).pdf_hash = _hash_file sha256hex16 pdf_contents := by
    rw [(mark_fields cp i s).2.1, hcp]
    unfold Checkpoint.load_or_create
    cases checkpoint_file with
    | none => rfl
    | some data =>
      dsimp only
      split_ifs <;> rfl
  rw [is_done_save_reload sha256hex16 (cp.mark i s) pdf_path pdf_contents hhash
    i s hs]
  exact hmarked

/-- C2 witness at a concrete instance. -/
theorem mark_is_done_roundtrip_witness :
    ("chunked" ∈ STAGES) ∧
    (((Checkpoint.load_or_create sampleHash none "a.pdf" [7]).mark 2
        "chunked").is_done 2 "chunked" = true ∧
      (Checkpoint.load_or_create sampleHash
          (some (((Checkpoint.load_or_create sampleHash none "a.pdf" [7]).mark 2
            "chunked").save)) "a.pdf" [7]).is_done 2 "chunked" = true) :=
  ⟨by decide,
    mark_is_done_roundtrip sampleHash none "a.pdf" [7] 2 "chunked" (by decide)⟩

/-- C7: the run fingerprint is the hash of the first 1 MiB of the source;
a stored checkpoint with a matching fingerprint is reloaded with its
chapter statuses, a missing file or a mismatched fingerprint yields a
fresh empty checkpoint, and two sources agreeing on their first 1 MiB get
the same fingerprint and are treated as the same run. -/
theorem load_or_create_fingerprint
    (sha256hex16 : List Nat → String) (checkpoint_file : Option CheckpointData)
    (pdf_path : String) (pdf_contents pdf_contents2 : List Nat)
    (dataM dataX : CheckpointData)
    (hEq : dataM.pdf_hash = _hash_file sha256hex16 pdf_contents)
    (hNe : dataX.pdf_hash ≠ _hash_file sha256hex16 pdf_contents)
    (hPre : pdf_contents.take (1024 * 1024) = pdf_contents2.take (1024 * 1024)) :
    ((Checkpoint.load_or_create sha256hex16 (some dataM) pdf_path
        pdf_contents).chapters
      = dataM.chapters.map (fun p => (p.1, p.2.toStatus)) ∧
     (Checkpoint.load_or_create sha256hex16 (some dataM) pdf_path
        pdf_contents).total_chapters = dataM.total_chapters ∧
     (Checkpoint.load_or_create sha256hex16 (some dataM) pdf_path
        pdf_contents).parser_used = dataM.parser_used) ∧
    (Checkpoint.load_or_create sha256hex16 (some dataX) pdf_path
        pdf_contents).chapters = [] ∧
    (Checkpoint.load_or_create sha256hex16 none pdf_path
        pdf_contents).chapters = [] ∧
    _hash_file sha256hex16 pdf_contents
      = _hash_file sha256hex16 pdf_contents2 ∧
    Checkpoint.load_or_create sha256hex16 checkpoint_file pdf_path pdf_contents
      = Checkpoint.load_or_create sha256hex16 checkpoint_file pdf_path
          pdf_contents2 := by
  have hfp : _hash_file sha256hex16 pdf_contents
      = _hash_file sha256hex16 pdf_contents2 := by
    unfold _hash_file
    rw [hPre]
  refine ⟨?_, ?_, rfl, hfp, ?_⟩
  · unfold Checkpoint.load_or_create
    simp [hEq]
  · unfold Checkpoint.load_or_create
    simp [hNe]
  · unfold Checkpoint.load_or_create
    rw [← hfp]

/-- C7 witness at a concrete instance. -/
theorem load_or_create_fingerprint_witness :
    (sampleDataM.pdf_hash = _hash_file sampleHash [9] ∧
      sampleDataX.pdf_hash ≠ _hash_file sampleHash [9] ∧
      ([9] : List Nat).take (1024 * 1024) = ([9, 0].take 1).take (1024 * 1024)) ∧
    ((Checkpoint.load_or_create sampleHash (some sampleDataM) "b.pdf"
        [9]).chapters = sampleDataM.chapters.map (fun p => (p.1, p.2.toStatus)) ∧
      (Checkpoint.load_or_create sampleHash (some sampleDataM) "b.pdf"
        [9]).total_chapters = sampleDataM.total_chapters ∧
      (Checkpoint.load_or_create sampleHash (some sampleDataM) "b.pdf"
        [9]).parser_used = sampleDataM.parser_used) ∧
    (Checkpoint.load_or_create sampleHash (some sampleDataX) "b.pdf"
      [9]).chapters = [] ∧
    (Checkpoint.load_or_create sampleHash none "b.pdf" [9]).chapters = [] ∧
    _hash_file sampleHash [9] = _hash_file sampleHash ([9, 0].take 1) ∧
    Checkpoint.load_or_create sampleHash none "b.pdf" [9]
      = Checkpoint.load_or_create sampleHash none "b.pdf" ([9, 0].take 1) :=
  ⟨⟨by decide, by decide, by decide⟩,
    load_or_create_fingerprint sampleHash none "b.pdf" [9] ([9, 0].take 1)
      sampleDataM sampleDataX (by decide) (by decide) (by decide)⟩

/-- C8: stage flags are monotonic: once a flag reads true it stays true
under any further mark (mark only sets flags, never clears them) and
under the scheduler's per-chapter stage processing. -/
theorem stage_flags_monotonic (cp : Checkpoint) (i : Nat) (s : String)
    (h : cp.is_done i s = true) :
    (∀ j t, (cp.mark j t).is_done i s = true) ∧
    (∀ (clean_one_chapter : Chapter → Except String String)
       (chunk_one_chapter : Nat → String → String → Except String String)
       (synthesize_chapter : Nat → String → Except String String)
       (output_dir : String) (chapter : Chapter),
      ((_process_chapter clean_one_chapter chunk_one_chapter
          synthesize_chapter output_dir cp chapter).1).is_done i s = true) := by
  refine ⟨fun j t => is_done_mark_mono cp i j s t h, ?_⟩
  intro clean chunk synth output_dir chapter
  exact process_chapter_is_done_mono clean chunk synth output_dir cp chapter i s h

/-- C8 witness at a concrete instance. -/
theorem stage_flags_monotonic_witness :
    sampleParsedCp.is_done 0 "parsed" = true ∧
    (sampleParsedCp.mark 5 "cleaned").is_done 0 "parsed" = true :=
  ⟨by decide,
    (stage_flags_monotonic sampleParsedCp 0 "parsed" (by decide)).1 5 "cleaned"⟩

/-- C9 counterexample: marking a stage name that is not one of the four
known status flags creates a dynamic attribute (Python setattr), and
is_done then reports true for that unknown stage name, contradicting the
claim that an unknown stage always reads false. -/
theorem is_done_unknown_stage_counterexample :
    ("foo" ∉ STAGES) ∧
    ((({} : Checkpoint).mark 0 "foo").is_done 0 "foo" = true) := by
  constructor
  · decide
  · decide

/-- C9 as amended: is_done is a pure total read returning a Bool; an
absent chapter index reads false, and an unknown stage name reads false
on every checkpoint whose status records carry only the four declared
flags, which includes everything load_or_create produces. -/
theorem is_done_total_amended (cp : Checkpoint) (i : Nat) (s : String)
    (hclean : ∀ p ∈ cp.chapters, p.2.extra = []) :
    (alGet cp.chapters i = none → cp.is_done i s = false) ∧
    (s ∉ STAGES → cp.is_done i s = false) := by
  constructor
  · intro h
    unfold Checkpoint.is_done
    rw [h]
  · intro hs
    unfold Checkpoint.is_done
    cases h : alGet cp.chapters i with
    | none => rfl
    | some st =>
      have hex : st.extra = [] := hclean (i, st) (alGet_mem cp.chapters i st h)
      simp only [STAGES, List.mem_cons, List.mem_singleton, not_or] at hs
      unfold ChapterStatus.getStage
      dsimp only
      rw [if_neg hs.1, if_neg hs.2.1, if_neg hs.2.2.1, if_neg hs.2.2.2.1, hex]
      rfl

/-- C9 amended-claim witness at a concrete instance. -/
theorem is_done_total_amended_witness :
    (∀ p ∈ sampleFreshCp.chapters, p.2.extra = ([] : List (String × Bool))) ∧
    ((alGet sampleFreshCp.chapters 1 = none →
        sampleFreshCp.is_done 1 "zzz" = false) ∧
      ("zzz" ∉ STAGES → sampleFreshCp.is_done 1 "zzz" = false)) :=
  ⟨by decide, is_done_total_amended sampleFreshCp 1 "zzz" (by decide)⟩

/-- C1: a chapter whose cleaned, chunked and synthesized stages are all
marked done in the checkpoint is processed with zero stage invocations;
the scheduler reconstructs the three zero-padded artifact paths and
returns them with error none, leaving the checkpoint untouched. -/
theorem process_chapter_all_done_skips
    (clean_one_chapter : Chapter → Except String String)
    (chunk_one_chapter : Nat → String → String → Except String String)
    (synthesize_chapter : Nat → String → Except String String)
    (output_dir : String) (cp : Checkpoint) (chapter : Chapter)
    (h1 : cp.is_done chapter.index "cleaned" = true)
    (h2 : cp.is_done chapter.index "chunked" = true)
    (h3 : cp.is_done chapter.index "synthesized" = true) :
    _process_chapter clean_one_chapter chunk_one_chapter synthesize_chapter
        output_dir cp chapter =
      (cp, [],
        Except.ok
          { index := chapter.index,
            cleaned_path := some (output_dir ++ "/cleaned/chapter_"
              ++ zfill 3 chapter.index ++ ".txt"),
            chunk_path := some (output_dir ++ "/chunks/chapter_"
              ++ zfill 3 chapter.index ++ ".json"),
            audio_path := some (output_dir ++ "/audio/chapter_"
              ++ zfill 3 chapter.index ++ ".mp3"),
            error := none }) := by
  unfold _process_chapter cleanStage chunkStage synthStage
  simp [h1, h2, h3]

/-- C1 witness at a concrete instance. -/
theorem process_chapter_all_done_skips_witness :
    (sampleDoneCp.is_done sampleChapter.index "cleaned" = true ∧
      sampleDoneCp.is_done sampleChapter.index "chunked" = true ∧
      sampleDoneCp.is_done sampleChapter.index "synthesized" = true) ∧
    _process_chapter failingClean failingChunk failingSynth "out" sampleDoneCp
        sampleChapter =
      (sampleDoneCp, [],
        Except.ok
          { index := sampleChapter.index,
            cleaned_path := some ("out" ++ "/cleaned/chapter_"
              ++ zfill 3 sampleChapter.index ++ ".txt"),
            chunk_path := some ("out" ++ "/chunks/chapter_"
              ++ zfill 3 sampleChapter.index ++ ".json"),
            audio_path := some ("out" ++ "/audio/chapter_"
              ++ zfill 3 sampleChapter.index ++ ".mp3"),
            error := none }) :=
  ⟨⟨by decide, by decide, by decide⟩,
    process_chapter_all_done_skips failingClean failingChunk failingSynth "out"
      sampleDoneCp sampleChapter (by decide) (by decide) (by decide)⟩

/-- A normally returned ChapterResult always carries its chapter's index. -/
theorem process_chapter_ok_index
    (clean_one_chapter : Chapter → Except String String)
    (chunk_one_chapter : Nat → String → String → Except String String)
    (synthesize_chapter : Nat → String → Except String String)
    (output_dir : String) (cp : Checkpoint) (chapter : Chapter)
    (r : ChapterResult)
    (hr : (_process_chapter clean_one_chapter chunk_one_chapter
        synthesize_chapter output_dir cp chapter).2.2 = Except.ok r) :
    r.index = chapter.index := by
  unfold _process_chapter at hr
  dsimp only at hr
  revert hr
  cases (cleanStage clean_one_chapter output_dir cp chapter).2.2 with
  | error e => intro hr; simp at hr
  | ok cleaned_path =>
    dsimp only
    cases (chunkStage chunk_one_chapter output_dir
        (cleanStage clean_one_chapter output_dir cp chapter).1 chapter
        cleaned_path).2.2 with
    | error e => intro hr; simp at hr
    | ok chunk_path =>
      dsimp only
      cases (synthStage synthesize_chapter output_dir
          (chunkStage chunk_one_chapter output_dir
            (cleanStage clean_one_chapter output_dir cp chapter).1 chapter
            cleaned_path).1 chapter chunk_path).2.2 with
      | error e => intro hr; simp at hr
      | ok audio_path =>
        dsimp only
        intro hr
        injection hr with hr2
        rw [← hr2]

theorem runStep_get_self
    (clean_one_chapter : Chapter → Except String String)
    (chunk_one_chapter : Nat → String → String → Except String String)
    (synthesize_chapter : Nat → String → Except String String)
    (output_dir : String)
    (acc : Checkpoint × List (Nat × ChapterResult)) (chapter : Chapter) :
    alGet (runStep clean_one_chapter chunk_one_chapter synthesize_chapter
        output_dir acc chapter).2 chapter.index
      = some (processOutcome clean_one_chapter chunk_one_chapter
          synthesize_chapter output_dir acc.1 chapter) := by
  unfold runStep processOutcome
  dsimp only
  cases (_process_chapter clean_one_chapter chunk_one_chapter
      synthesize_chapter output_dir acc.1 chapter).2.2 with
  | error e => exact alGet_alSet_self acc.2 chapter.index _
  | ok r => exact alGet_alSet_self acc.2 chapter.index _

theorem runStep_get_other
    (clean_one_chapter : Chapter → Except String String)
    (chunk_one_chapter : Nat → String → String → Except String String)
    (synthesize_chapter : Nat → String → Except String String)
    (output_dir : String)
    (acc : Checkpoint × List (Nat × ChapterResult)) (chapter : Chapter)
    (k : Nat) (hk : chapter.index ≠ k) :
    alGet (runStep clean_one_chapter chunk_one_chapter synthesize_chapter
        output_dir acc chapter).2 k = alGet acc.2 k := by
  unfold runStep
  dsimp only
  cases (_process_chapter clean_one_chapter chunk_one_chapter
      synthesize_chapter output_dir acc.1 chapter).2.2 with
  | error e => exact alGet_alSet_ne acc.2 chapter.index k _ hk
  | ok r => exact alGet_alSet_ne acc.2 chapter.index k _ hk

theorem runFold_preserve
    (clean_one_chapter : Chapter → Except String String)
    (chunk_one_chapter : Nat → String → String → Except String String)
    (synthesize_chapter : Nat → String → Except String String)
    (output_dir : String) :
    ∀ (l : List Chapter) (acc : Checkpoint × List (Nat × ChapterResult))
      (k : Nat), (∀ ch ∈ l, ch.index ≠ k) →
      alGet (l.foldl (runStep clean_one_chapter chunk_one_chapter
          synthesize_chapter output_dir) acc).2 k = alGet acc.2 k := by
  intro l
  induction l with
  | nil => intro acc k _; rfl
  | cons c rest ih =>
    intro acc k hk
    rw [List.foldl_cons,
      ih _ k (fun ch hch => hk ch (List.mem_cons_of_mem c hch)),
      runStep_get_other _ _ _ _ _ _ k (hk c (List.mem_cons_self c rest))]

theorem runFold_covers
    (clean_one_chapter : Chapter → Except String String)
    (chunk_one_chapter : Nat → String → String → Except String String)
    (synthesize_chapter : Nat → String → Except String String)
    (output_dir : String) :
    ∀ (l : List Chapter) (acc : Checkpoint × List (Nat × ChapterResult)),
      (l.map Chapter.index).Nodup →
      ∀ ch ∈ l, ∃ cpb,
        alGet (l.foldl (runStep clean_one_chapter chunk_one_chapter
            synthesize_chapter output_dir) acc).2 ch.index
          = some (processOutcome clean_one_chapter chunk_one_chapter
              synthesize_chapter output_dir cpb ch) := by
  intro l
  induction l with
  | nil => intro acc _ ch hch; cases hch
  | cons c rest ih =>
    intro acc hnd ch hch
    rw [List.map_cons, List.nodup_cons] at hnd
    rcases List.mem_cons.mp hch with hc | hrest
    · subst hc
      refine ⟨acc.1, ?_⟩
      rw [List.foldl_cons,
        runFold_preserve clean_one_chapter chunk_one_chapter
          synthesize_chapter output_dir rest _ ch.index
          (fun ch2 hch2 h2 => hnd.1 (h2 ▸ List.mem_map_of_mem Chapter.index hch2)),
        runStep_get_self]
    · exact ih _ hnd.2 ch hrest

/-- C4: StreamingPipeline.run returns a result for every submitted
chapter index; a chapter whose processing raised stores that error as
data in its ChapterResult, and one chapter's failure does not prevent any
other chapter from being processed (every chapter's entry is the outcome
of its own processing against the checkpoint state its worker saw). -/
theorem run_failure_isolation
    (clean_one_chapter : Chapter → Except String String)
    (chunk_one_chapter : Nat → String → String → Except String String)
    (synthesize_chapter : Nat → String → Except String String)
    (output_dir : String) (chapters : List Chapter) (cp : Checkpoint)
    (hnd : (chapters.map Chapter.index).Nodup) :
    (∀ ch ∈ chapters, ∃ cpb,
      alGet (run clean_one_chapter chunk_one_chapter synthesize_chapter
          output_dir chapters cp).2 ch.index
        = some (processOutcome clean_one_chapter chunk_one_chapter
            synthesize_chapter output_dir cpb ch)) ∧
    (∀ (cpb : Checkpoint) (ch : Chapter),
      (processOutcome clean_one_chapter chunk_one_chapter synthesize_chapter
          output_dir cpb ch).index = ch.index) ∧
    (∀ (cpb : Checkpoint) (ch : Chapter) (e : String),
      (_process_chapter clean_one_chapter chunk_one_chapter
          synthesize_chapter output_dir cpb ch).2.2 = Except.error e →
      processOutcome clean_one_chapter chunk_one_chapter synthesize_chapter
          output_dir cpb ch
        = { index := ch.index, cleaned_path := none, chunk_path := none,
            audio_path := none, error := some e }) := by
  refine ⟨?_, ?_, ?_⟩
  · exact fun ch hch => runFold_covers clean_one_chapter chunk_one_chapter
      synthesize_chapter output_dir chapters (cp, []) hnd ch hch
  · intro cpb ch
    unfold processOutcome
    cases hr : (_process_chapter clean_one_chapter chunk_one_chapter
        synthesize_chapter output_dir cpb ch).2.2 with
    | error e => rfl
    | ok r =>
      dsimp only
      exact process_chapter_ok_index clean_one_chapter chunk_one_chapter
        synthesize_chapter output_dir cpb ch r hr
  · intro cpb ch e he
    unfold processOutcome
    rw [he]

/-- C4 witness at a concrete instance. -/
theorem run_failure_isolation_witness :
    (([sampleChapter].map Chapter.index).Nodup) ∧
    (∃ cpb,
      alGet (run failingClean failingChunk failingSynth "out" [sampleChapter]
          {}).2 sampleChapter.index
        = some (processOutcome failingClean failingChunk failingSynth "out" cpb
            sampleChapter)) :=
  ⟨by decide,
    (run_failure_isolation failingClean failingChunk failingSynth "out"
      [sampleChapter] {} (by decide)).1 sampleChapter (by simp)⟩

theorem length_filter_eq_iff {α : Type} (p : α → Bool) (l : List α) :
    (l.filter p).length = l.length ↔ ∀ a ∈ l, p a = true := by
  constructor
  · intro h a ha
    exact List.filter_eq_self.mp ((List.filter_sublist l).eq_of_length h) a ha
  · intro h
    rw [List.filter_eq_self.mpr h]

/-- C3 counterexample: a chapter with two sub-units, one of which already
has its artifact from a previous run; the only missing sub-unit fails, so
all work items fail and synthesize_one_chapter raises, even though a
sub-unit of the chapter has a produced artifact. -/
theorem synth_escalation_counterexample :
    wavZeroExists (chunkWavPath ("audio" ++ "/chapter_" ++ zfill 3 0) 0)
        = true ∧
    exceptOk (synthesize_one_chapter engineBoom wavZeroExists 1 0 ccTwo
        "audio").result = false := by
  constructor
  · decide
  · decide

/-- C3 as amended: synthesize_one_chapter raises iff the chapter has
chunks, at least one of them lacks its wav artifact, and every such work
item fails; sub-units whose artifacts already exist are skipped and do
not count as successes for the escalation check. On normal return the
chapter mp3 path is returned and the chapter is stitched from the wav
artifacts present after synthesis (pre-existing or newly succeeded). -/
theorem synth_escalation_amended
    (engine_synthesize : String → String → Except String Unit)
    (wav_exists : String → Bool) (workers ch_idx : Nat)
    (chapter_chunks : ChapterChunks) (audio_dir : String)
    (hne : chapter_chunks.chunks ≠ []) :
    (exceptOk (synthesize_one_chapter engine_synthesize wav_exists workers
        ch_idx chapter_chunks audio_dir).result = false ↔
      (pendingChunks wav_exists (audio_dir ++ "/chapter_" ++ zfill 3 ch_idx)
          chapter_chunks.chunks ≠ [] ∧
        ∀ p ∈ pendingChunks wav_exists
            (audio_dir ++ "/chapter_" ++ zfill 3 ch_idx)
            chapter_chunks.chunks,
          exceptOk (engine_synthesize p.2.text
            (chunkWavPath (audio_dir ++ "/chapter_" ++ zfill 3 ch_idx) p.1))
            = false)) ∧
    (exceptOk (synthesize_one_chapter engine_synthesize wav_exists workers
        ch_idx chapter_chunks audio_dir).result = true →
      (synthesize_one_chapter engine_synthesize wav_exists workers ch_idx
          chapter_chunks audio_dir).result
        = Except.ok (audio_dir ++ "/chapter_" ++ zfill 3 ch_idx ++ ".mp3") ∧
      (synthesize_one_chapter engine_synthesize wav_exists workers ch_idx
          chapter_chunks audio_dir).stitched
        = some ((chapter_chunks.chunks.enum.filter fun p =>
            wav_exists (chunkWavPath
              (audio_dir ++ "/chapter_" ++ zfill 3 ch_idx) p.1)
              || exceptOk (engine_synthesize p.2.text (chunkWavPath
                (audio_dir ++ "/chapter_" ++ zfill 3 ch_idx) p.1))).map
            fun p => chunkWavPath
              (audio_dir ++ "/chapter_" ++ zfill 3 ch_idx) p.1)) := by
  unfold synthesize_one_chapter
  dsimp only
  set dir := audio_dir ++ "/chapter_" ++ zfill 3 ch_idx with hdir
  set pend := pendingChunks wav_exists dir chapter_chunks.chunks with hpend
  split_ifs with hemp hcond
  · exact absurd (List.isEmpty_iff.mp hemp) hne
  · rw [Bool.and_eq_true, Bool.not_eq_true', List.isEmpty_eq_false,
      beq_iff_eq] at hcond
    constructor
    · dsimp only [exceptOk]
      refine iff_of_true rfl ⟨hcond.1, fun p hp => ?_⟩
      have hall := (length_filter_eq_iff _ pend).mp hcond.2 p hp
      rwa [Bool.not_eq_true'] at hall
    · intro hok
      dsimp only [exceptOk] at hok
      cases hok
  · constructor
    · dsimp only [exceptOk]
      refine iff_of_false (by simp) ?_
      rintro ⟨hpne, hall⟩
      apply hcond
      rw [Bool.and_eq_true, Bool.not_eq_true', List.isEmpty_eq_false,
        beq_iff_eq]
      refine ⟨hpne, (length_filter_eq_iff _ pend).mpr fun p hp => ?_⟩
      rw [Bool.not_eq_true']
      exact hall p hp
    · intro _
      exact ⟨rfl, rfl⟩

/-- C3 amended-claim witness at a concrete instance. -/
theorem synth_escalation_amended_witness :
    (ccTwo.chunks ≠ []) ∧
    ((exceptOk (synthesize_one_chapter engineBoom wavZeroExists 1 0 ccTwo
        "audio").result = false ↔
      (pendingChunks wavZeroExists ("audio" ++ "/chapter_" ++ zfill 3 0)
          ccTwo.chunks ≠ [] ∧
        ∀ p ∈ pendingChunks wavZeroExists
            ("audio" ++ "/chapter_" ++ zfill 3 0) ccTwo.chunks,
          exceptOk (engineBoom p.2.text
            (chunkWavPath ("audio" ++ "/chapter_" ++ zfill 3 0) p.1))
            = false)) ∧
     (exceptOk (synthesize_one_chapter engineBoom wavZeroExists 1 0 ccTwo
        "audio").result = true →
      (synthesize_one_chapter engineBoom wavZeroExists 1 0 ccTwo
          "audio").result
        = Except.ok ("audio" ++ "/chapter_" ++ zfill 3 0 ++ ".mp3") ∧
      (synthesize_one_chapter engineBoom wavZeroExists 1 0 ccTwo
          "audio").stitched
        = some ((ccTwo.chunks.enum.filter fun p =>
            wavZeroExists (chunkWavPath
              ("audio" ++ "/chapter_" ++ zfill 3 0) p.1)
              || exceptOk (engineBoom p.2.text (chunkWavPath
                ("audio" ++ "/chapter_" ++ zfill 3 0) p.1))).map
            fun p => chunkWavPath
              ("audio" ++ "/chapter_" ++ zfill 3 0) p.1))) :=
  ⟨by decide,
    synth_escalation_amended engineBoom wavZeroExists 1 0 ccTwo "audio"
      (by decide)⟩

/-- C6 counterexample: with the auto-detected worker count for the openai
engine (8) and a chapter with two missing chunk wavs, the sub-unit
dispatch pool has two engine.synthesize invocations that may be in
flight concurrently: they are not serialized by any exclusive section. -/
theorem tts_single_flight_counterexample :
    _get_worker_count 0 "openai" (some 4) = 8 ∧
    (∃ c1 ∈ (synthesize_one_chapter engineFine wavNone
        (_get_worker_count 0 "openai" (some 4)) 0 ccTwo "audio").engine_calls,
      ∃ c2 ∈ (synthesize_one_chapter engineFine wavNone
          (_get_worker_count 0 "openai" (some 4)) 0 ccTwo
          "audio").engine_calls,
        mayOverlap c1 c2 = true) := by
  constructor
  · decide
  · decide

theorem engineCallsOf_single_worker (workers : Nat) (chunk_audio_dir : String)
    (work_items : List (Nat × ChunkMeta)) (hw : workers ≤ 1) :
    ∀ c ∈ engineCallsOf workers chunk_audio_dir work_items,
      c.pool_workers = 1 := by
  intro c hc
  unfold engineCallsOf at hc
  rw [if_pos hw] at hc
  obtain ⟨q, _, hq⟩ := List.mem_map.mp hc
  rw [← hq]

/-- The engine invocations of synthesize_one_chapter, independent of
whether the chapter is later escalated. -/
theorem synthesize_one_chapter_engine_calls
    (engine_synthesize : String → String → Except String Unit)
    (wav_exists : String → Bool) (workers ch_idx : Nat)
    (chapter_chunks : ChapterChunks) (audio_dir : String) :
    (synthesize_one_chapter engine_synthesize wav_exists workers ch_idx
        chapter_chunks audio_dir).engine_calls
      = if chapter_chunks.chunks.isEmpty then []
        else
          engineCallsOf workers (audio_dir ++ "/chapter_" ++ zfill 3 ch_idx)
            (pendingChunks wav_exists
              (audio_dir ++ "/chapter_" ++ zfill 3 ch_idx)
              chapter_chunks.chunks) := by
  unfold synthesize_one_chapter
  dsimp only
  split_ifs <;> rfl

/-- C6 as amended: the global synth lock serializes the chapter-level
synthesize_one_chapter invocations, but not the engine.synthesize calls
that the sub-unit dispatch pool makes inside one chapter: those are all
serialized exactly when the effective worker count is at most 1 (the
sequential for-loop); with two or more workers and two or more missing
chunks, distinct calls of one dispatch batch may be in flight
concurrently. -/
theorem tts_serialized_single_worker
    (engine_synthesize : String → String → Except String Unit)
    (wav_exists : String → Bool) (workers ch_idx : Nat)
    (chapter_chunks : ChapterChunks) (audio_dir : String)
    (hw : workers ≤ 1) :
    ∀ c1 ∈ (synthesize_one_chapter engine_synthesize wav_exists workers
        ch_idx chapter_chunks audio_dir).engine_calls,
      ∀ c2 ∈ (synthesize_one_chapter engine_synthesize wav_exists workers
          ch_idx chapter_chunks audio_dir).engine_calls,
        mayOverlap c1 c2 = false := by
  intro c1 hc1 c2 hc2
  rw [synthesize_one_chapter_engine_calls] at hc1
  have hp1 : c1.pool_workers = 1 := by
    by_cases hemp : chapter_chunks.chunks.isEmpty = true
    · rw [if_pos hemp] at hc1
      cases hc1
    · rw [if_neg hemp] at hc1
      exact engineCallsOf_single_worker workers _ _ hw c1 hc1
  unfold mayOverlap
  rw [hp1]
  simp

/-- C6 amended-claim witness at a concrete instance. -/
theorem tts_serialized_single_worker_witness :
    1 ≤ 1 ∧
    (∀ c1 ∈ (synthesize_one_chapter engineFine wavNone 1 0 ccTwo
        "audio").engine_calls,
      ∀ c2 ∈ (synthesize_one_chapter engineFine wavNone 1 0 ccTwo
          "audio").engine_calls,
        mayOverlap c1 c2 = false) :=
  ⟨by decide,
    tts_serialized_single_worker engineFine wavNone 1 0 ccTwo "audio"
      (by decide)⟩

theorem synthAllStep_is_done_mono (wav_exists : String → Bool)
    (workers : Nat) (audio_dir : String) (st : SynthAllState)
    (p : Nat × ChapterChunks) (i : Nat) (s : String)
    (h : st.checkpoint.is_done i s = true) :
    (synthAllStep wav_exists workers audio_dir st p).checkpoint.is_done i s
      = true := by
  unfold synthAllStep
  split_ifs
  · exact is_done_mark_mono _ i p.1 s _ h
  · exact h
  · exact is_done_mark_mono _ i p.1 s _ h

theorem synthAllFold_is_done_mono (wav_exists : String → Bool)
    (workers : Nat) (audio_dir : String) :
    ∀ (pairs : List (Nat × ChapterChunks)) (st : SynthAllState) (i : Nat)
      (s : String), st.checkpoint.is_done i s = true →
      (pairs.foldl (synthAllStep wav_exists workers audio_dir)
          st).checkpoint.is_done i s = true := by
  intro pairs
  induction pairs with
  | nil => exact fun st i s h => h
  | cons q rest ih =>
    intro st i s h
    rw [List.foldl_cons]
    exact ih _ i s (synthAllStep_is_done_mono wav_exists workers audio_dir
      st q i s h)

theorem synthAllFold_empty_marks (wav_exists : String → Bool)
    (workers : Nat) (audio_dir : String) :
    ∀ (pairs : List (Nat × ChapterChunks)) (st : SynthAllState) (j : Nat)
      (cc : ChapterChunks), (j, cc) ∈ pairs → cc.chunks = [] →
      (pairs.foldl (synthAllStep wav_exists workers audio_dir)
          st).checkpoint.is_done j "synthesized" = true := by
  intro pairs
  induction pairs with
  | nil => intro st j cc hmem; cases hmem
  | cons q rest ih =>
    intro st j cc hmem hcc
    rcases List.mem_cons.mp hmem with heq | hrest
    · rw [List.foldl_cons]
      apply synthAllFold_is_done_mono
      rw [← heq]
      unfold synthAllStep
      rw [if_pos (by rw [hcc]; rfl)]
      dsimp only
      rw [is_done_mark]
      simp
    · rw [List.foldl_cons]
      exact ih _ j cc hrest hcc

/-- C10: a chapter whose chunk list is empty is returned immediately by
synthesize_one_chapter with its expected mp3 path, no engine invocation
and no stitching, and synthesize_all additionally marks such a chapter
synthesized in the checkpoint. -/
theorem empty_chapter_synthesis
    (engine_synthesize : String → String → Except String Unit)
    (wav_exists : String → Bool) (workers ch_idx : Nat)
    (chapter_chunks : ChapterChunks) (audio_dir : String)
    (hempty : chapter_chunks.chunks = []) :
    synthesize_one_chapter engine_synthesize wav_exists workers ch_idx
        chapter_chunks audio_dir
      = { result :=
            Except.ok (audio_dir ++ "/chapter_" ++ zfill 3 ch_idx ++ ".mp3"),
          engine_calls := [], stitched := none } ∧
    (∀ (chunk_list : List ChapterChunks) (cp : Checkpoint) (j : Nat),
      chunk_list.get? j = some chapter_chunks →
      (synthesize_all wav_exists workers audio_dir chunk_list
          cp).checkpoint.is_done j "synthesized" = true) := by
  constructor
  · unfold synthesize_one_chapter
    rw [hempty]
    rfl
  · intro chunk_list cp j hj
    unfold synthesize_all
    apply synthAllFold_empty_marks wav_exists workers audio_dir
      chunk_list.enum _ j chapter_chunks _ hempty
    rw [List.mk_mem_enum_iff_getElem?, ← List.get?_eq_getElem?]
    exact hj

/-- C10 witness at a concrete instance. -/
theorem empty_chapter_synthesis_witness :
    (ccEmpty.chunks = []) ∧
    (synthesize_one_chapter engineBoom wavNone 1 7 ccEmpty "audio"
      = { result := Except.ok ("audio" ++ "/chapter_" ++ zfill 3 7 ++ ".mp3"),
          engine_calls := [], stitched := none }) ∧
    ((synthesize_all wavNone 1 "audio" [ccEmpty] {}).checkpoint.is_done 0
      "synthesized" = true) := by
  refine ⟨rfl, ?_, ?_⟩
  · exact (empty_chapter_synthesis engineBoom wavNone 1 7 ccEmpty "audio"
      rfl).1
  · exact (empty_chapter_synthesis engineBoom wavNone 1 7 ccEmpty "audio"
      rfl).2 [ccEmpty] {} 0 rfl

theorem artifactKey_ne_of_dir {d1 d2 e1 e2 : String} {i1 i2 : Nat}
    (h : d1 ≠ d2) : (d1, i1, e1) ≠ (d2, i2, e2) :=
  fun hEq => h (congrArg Prod.fst hEq)

theorem artifactKey_ne_of_index {d1 d2 e1 e2 : String} {i1 i2 : Nat}
    (h : i1 ≠ i2) : (d1, i1, e1) ≠ (d2, i2, e2) :=
  fun hEq => h (congrArg (fun q => q.2.1) hEq)

theorem artifactKey_ne_of_ext {d1 d2 e1 e2 : String} {i1 i2 : Nat}
    (h : e1 ≠ e2) : (d1, i1, e1) ≠ (d2, i2, e2) :=
  fun hEq => h (congrArg (fun q => q.2.2) hEq)

theorem descLoop_untouched {κ α : Type} [DecidableEq κ] (p : Nat → κ)
    (step : List (κ × α) → Nat → List (κ × α))
    (hstep : ∀ d i j, j ≠ i → j ≠ i + 1 →
      alGet (step d i) (p j) = alGet d (p j)) :
    ∀ (n : Nat) (d : List (κ × α)) (j : Nat), n < j →
      alGet (descLoop step d n) (p j) = alGet d (p j) := by
  intro n
  induction n with
  | zero => intro d j _; rfl
  | succ n ih =>
    intro d j hj
    show alGet (descLoop step (step d n) n) (p j) = _
    rw [ih (step d n) j (by omega), hstep d n j (by omega) (by omega)]

theorem descLoop_cleared {κ α : Type} [DecidableEq κ] (p : Nat → κ)
    (step : List (κ × α) → Nat → List (κ × α))
    (hclear : ∀ d i, alGet (step d i) (p i) = none) :
    ∀ (n : Nat) (d : List (κ × α)),
      alGet (descLoop step d (n + 1)) (p 0) = none := by
  intro n
  induction n with
  | zero => intro d; exact hclear d 0
  | succ n ih => intro d; exact ih (step d (n + 1))

/-- The heart of the Reindexer shift: processing indices in descending
order moves the entry at every index i to index i + 1, because slot i + 1
was vacated before step i writes into it. -/
theorem descLoop_shift {κ α : Type} [DecidableEq κ] (p : Nat → κ)
    (step : List (κ × α) → Nat → List (κ × α))
    (h1 : ∀ d i, alGet d (p (i + 1)) = none →
      alGet (step d i) (p (i + 1)) = alGet d (p i))
    (hstep : ∀ d i j, j ≠ i → j ≠ i + 1 →
      alGet (step d i) (p j) = alGet d (p j))
    (hclear : ∀ d i, alGet (step d i) (p i) = none) :
    ∀ (n : Nat) (d : List (κ × α)), alGet d (p n) = none →
      ∀ i, i < n →
        alGet (descLoop step d n) (p (i + 1)) = alGet d (p i) := by
  intro n
  induction n with
  | zero => intro d _ i hi; exact absurd hi (Nat.not_lt_zero i)
  | succ n ih =>
    intro d hd i hi
    show alGet (descLoop step (step d n) n) (p (i + 1)) = alGet d (p i)
    by_cases hin : i = n
    · subst hin
      rw [descLoop_untouched p step hstep i (step d i) (i + 1)
        (Nat.lt_succ_self i)]
      exact h1 d i hd
    · rw [ih (step d n) (hclear d n) i (by omega),
        hstep d n i (by omega) (by omega)]

theorem shiftExtStep_untouched (d : String) (e : String) (i j : Nat)
    (hji : j ≠ i) (hji1 : j ≠ i + 1) :
    ∀ (exts : List String) (fs : FileSystem) (d0 : String),
      alGet (shiftExtStep d exts fs i) (d0, j, e) = alGet fs (d0, j, e) := by
  intro exts
  induction exts with
  | nil => intro fs d0; rfl
  | cons ext rest ih =>
    intro fs d0
    show alGet (shiftExtStep d rest
      (fsRename fs (d, i, ext) (d, i + 1, ext)) i) (d0, j, e) = _
    rw [ih]
    exact alGet_alMove_other fs _ _ _ (artifactKey_ne_of_index hji)
      (artifactKey_ne_of_index hji1)

theorem shiftExtStep_other_dir (d d0 : String) (hd : d0 ≠ d) (i : Nat) :
    ∀ (exts : List String) (fs : FileSystem) (j : Nat) (e : String),
      alGet (shiftExtStep d exts fs i) (d0, j, e) = alGet fs (d0, j, e) := by
  intro exts
  induction exts with
  | nil => intro fs j e; rfl
  | cons ext rest ih =>
    intro fs j e
    show alGet (shiftExtStep d rest
      (fsRename fs (d, i, ext) (d, i + 1, ext)) i) (d0, j, e) = _
    rw [ih]
    exact alGet_alMove_other fs _ _ _ (artifactKey_ne_of_dir hd)
      (artifactKey_ne_of_dir hd)

theorem shiftExtStep_other_ext (d e : String) (i : Nat) :
    ∀ (exts : List String), e ∉ exts →
      ∀ (fs : FileSystem) (d0 : String) (j : Nat),
        alGet (shiftExtStep d exts fs i) (d0, j, e) = alGet fs (d0, j, e) := by
  intro exts
  induction exts with
  | nil => intro _ fs d0 j; rfl
  | cons ext rest ih =>
    intro hmem fs d0 j
    have hne : e ≠ ext := fun h => hmem (h ▸ List.mem_cons_self ext rest)
    have hrest : e ∉ rest := fun h => hmem (List.mem_cons_of_mem ext h)
    show alGet (shiftExtStep d rest
      (fsRename fs (d, i, ext) (d, i + 1, ext)) i) (d0, j, e) = _
    rw [ih hrest]
    exact alGet_alMove_other fs _ _ _ (artifactKey_ne_of_ext hne)
      (artifactKey_ne_of_ext hne)

theorem shiftExtStep_none (d e : String) (i : Nat) :
    ∀ (exts : List String) (fs : FileSystem),
      alGet fs (d, i, e) = none →
      alGet (shiftExtStep d exts fs i) (d, i, e) = none := by
  intro exts
  induction exts with
  | nil => intro fs h; exact h
  | cons ext rest ih =>
    intro fs h
    apply ih
    by_cases hext : ext = e
    · subst hext
      exact alGet_alMove_src fs _ _ (artifactKey_ne_of_index (by omega))
    · show alGet (alMove fs (d, i, ext) (d, i + 1, ext)) (d, i, e) = none
      rw [alGet_alMove_other fs (d, i, ext) (d, i + 1, ext) (d, i, e)
        (artifactKey_ne_of_ext (fun hh => hext hh.symm))
        (artifactKey_ne_of_index (by omega))]
      exact h

theorem shiftExtStep_cleared (d e : String) (i : Nat) :
    ∀ (exts : List String), e ∈ exts →
      ∀ (fs : FileSystem),
        alGet (shiftExtStep d exts fs i) (d, i, e) = none := by
  intro exts
  induction exts with
  | nil => intro hmem; cases hmem
  | cons ext rest ih =>
    intro hmem fs
    rcases List.mem_cons.mp hmem with he | he
    · subst he
      show alGet (shiftExtStep d rest
        (fsRename fs (d, i, e) (d, i + 1, e)) i) (d, i, e) = none
      apply shiftExtStep_none
      exact alGet_alMove_src fs (d, i, e) (d, i + 1, e)
        (artifactKey_ne_of_index (Nat.ne_of_lt (Nat.lt_succ_self i)))
    · exact ih he _

theorem shiftExtStep_shift (d e : String) (i : Nat) :
    ∀ (exts : List String), e ∈ exts → exts.Nodup →
      ∀ (fs : FileSystem), alGet fs (d, i + 1, e) = none →
        alGet (shiftExtStep d exts fs i) (d, i + 1, e)
          = alGet fs (d, i, e) := by
  intro exts
  induction exts with
  | nil => intro hmem; cases hmem
  | cons ext rest ih =>
    intro hmem hnd fs hdst
    rw [List.nodup_cons] at hnd
    rcases List.mem_cons.mp hmem with he | he
    · subst he
      show alGet (shiftExtStep d rest
        (fsRename fs (d, i, e) (d, i + 1, e)) i) (d, i + 1, e) = _
      rw [shiftExtStep_other_ext d e i rest hnd.1 _ d (i + 1)]
      exact alGet_alMove_dst fs _ _ hdst
    · have hne : ext ≠ e := fun h => hnd.1 (h ▸ he)
      have hdst2 : alGet (fsRename fs (d, i, ext) (d, i + 1, ext))
          (d, i + 1, e) = none := by
        show alGet (alMove fs (d, i, ext) (d, i + 1, ext)) (d, i + 1, e) = none
        rw [alGet_alMove_other fs (d, i, ext) (d, i + 1, ext) (d, i + 1, e)
          (artifactKey_ne_of_index (by omega))
          (artifactKey_ne_of_ext (fun h => hne h.symm))]
        exact hdst
      show alGet (shiftExtStep d rest
        (fsRename fs (d, i, ext) (d, i + 1, ext)) i) (d, i + 1, e) = _
      rw [ih he hnd.2 _ hdst2]
      exact alGet_alMove_other fs _ _ _
        (artifactKey_ne_of_ext (fun h => hne h.symm))
        (artifactKey_ne_of_index (by omega))

theorem descLoop_shiftExt_other_dir (d1 : String) (exts : List String)
    (d0 : String) (hd : d0 ≠ d1) :
    ∀ (n : Nat) (fs : FileSystem) (j : Nat) (e : String),
      alGet (descLoop (fun f i => shiftExtStep d1 exts f i) fs n) (d0, j, e)
        = alGet fs (d0, j, e) := by
  intro n
  induction n with
  | zero => intro fs j e; rfl
  | succ n ih =>
    intro fs j e
    show alGet (descLoop _ (shiftExtStep d1 exts fs n) n) (d0, j, e) = _
    rw [ih, shiftExtStep_other_dir d1 d0 hd]

theorem alGet_fsUpdate_self (fs : FileSystem) (k : String × Nat × String)
    (f : String → String) :
    alGet (fsUpdate fs k f) k = (alGet fs k).map f := by
  unfold fsUpdate
  cases h : alGet fs k with
  | none => simp [h]
  | some c => simp [alGet_alSet_self]

theorem alGet_fsUpdate_ne (fs : FileSystem) (k k2 : String × Nat × String)
    (f : String → String) (h : k ≠ k2) :
    alGet (fsUpdate fs k f) k2 = alGet fs k2 := by
  unfold fsUpdate
  cases hg : alGet fs k with
  | none => rfl
  | some c => exact alGet_alSet_ne fs k k2 (f c) h

theorem updLoop_untouched_key (updIndex : Nat → String → String)
    (k : String × Nat × String) (hk : ∀ i : Nat, k ≠ ("parsed", i + 1, ".json")) :
    ∀ (n : Nat) (fs : FileSystem),
      alGet (_update_parsed_json_indices updIndex fs n) k = alGet fs k := by
  intro n
  induction n with
  | zero => intro fs; rfl
  | succ n ih =>
    intro fs
    show alGet (fsUpdate (_update_parsed_json_indices updIndex fs n)
      ("parsed", n + 1, ".json") (updIndex (n + 1))) k = _
    rw [alGet_fsUpdate_ne _ _ _ _ (fun h => hk n h.symm), ih]

theorem updLoop_untouched_hi (updIndex : Nat → String → String) (j : Nat) :
    ∀ (n : Nat), n < j → ∀ (fs : FileSystem),
      alGet (_update_parsed_json_indices updIndex fs n) ("parsed", j, ".json")
        = alGet fs ("parsed", j, ".json") := by
  intro n
  induction n with
  | zero => intro _ fs; rfl
  | succ n ih =>
    intro hj fs
    show alGet (fsUpdate (_update_parsed_json_indices updIndex fs n)
      ("parsed", n + 1, ".json") (updIndex (n + 1))) ("parsed", j, ".json") = _
    rw [alGet_fsUpdate_ne _ _ _ _ (artifactKey_ne_of_index (by omega)),
      ih (by omega)]

theorem updLoop_get (updIndex : Nat → String → String) (j : Nat) :
    ∀ (n : Nat), 1 ≤ j → j ≤ n → ∀ (fs : FileSystem),
      alGet (_update_parsed_json_indices updIndex fs n) ("parsed", j, ".json")
        = (alGet fs ("parsed", j, ".json")).map (updIndex j) := by
  intro n
  induction n with
  | zero => intro h1 h2; omega
  | succ n ih =>
    intro h1 h2 fs
    show alGet (fsUpdate (_update_parsed_json_indices updIndex fs n)
      ("parsed", n + 1, ".json") (updIndex (n + 1))) ("parsed", j, ".json") = _
    by_cases hj : j = n + 1
    · subst hj
      rw [alGet_fsUpdate_self,
        updLoop_untouched_hi updIndex (n + 1) n (by omega)]
    · rw [alGet_fsUpdate_ne _ _ _ _ (artifactKey_ne_of_index (by omega)),
        ih h1 (by omega)]

theorem mark_get_self (cp : Checkpoint) (i : Nat) (s : String) :
    alGet (cp.mark i s).chapters i
      = some (((alGet cp.chapters i).getD {}).setStage s) := by
  unfold Checkpoint.mark
  exact alGet_alSet_self cp.chapters i _

theorem mark_get_ne (cp : Checkpoint) (i : Nat) (s : String) (j : Nat)
    (h : i ≠ j) : alGet (cp.mark i s).chapters j = alGet cp.chapters j := by
  unfold Checkpoint.mark
  exact alGet_alSet_ne cp.chapters i j _ h

/-- Normal form of generate_and_inject_summary when neither guard fires. -/
theorem generate_summary_eq (summary_text : String)
    (chapterJson : Chapter → String) (updIndex : Nat → String → String)
    (chapters : List Chapter) (cp : Checkpoint) (fs : FileSystem)
    (hguard : summaryAlready chapters = false)
    (hsum : isBlank summary_text = false) :
    generate_and_inject_summary summary_text chapterJson updIndex chapters cp
        fs
      = (summaryChapter summary_text ::
            chapters.map (fun ch => { ch with index := ch.index + 1 }),
          { (((_shift_checkpoint_entries cp chapters.length).mark 0
              "parsed").mark 0 "cleaned") with
            total_chapters := chapters.length + 1 },
          alSet (alSet (alSet (_update_parsed_json_indices updIndex
              (_shift_chapter_files chapters.length fs) chapters.length)
              ("parsed", 0, ".md") (summaryChapter summary_text).to_markdown)
            ("parsed", 0, ".json") (chapterJson (summaryChapter summary_text)))
            ("cleaned", 0, ".txt") summary_text) := by
  unfold generate_and_inject_summary
  rw [hguard, hsum]
  rw [if_neg Bool.false_ne_true, if_neg Bool.false_ne_true]

/-- The descending rename loop of one storage directory shifts its own
family of artifacts from index i to i + 1. -/
theorem descLoop_shiftExt_family (d0 e : String) (exts : List String)
    (hmem : e ∈ exts) (hnd : exts.Nodup) (N : Nat) (fs : FileSystem)
    (hN : alGet fs (d0, N, e) = none) (i : Nat) (hi : i < N) :
    alGet (descLoop (fun f i2 => shiftExtStep d0 exts f i2) fs N)
        (d0, i + 1, e)
      = alGet fs (d0, i, e) :=
  descLoop_shift (fun k => (d0, k, e))
    (fun f i2 => shiftExtStep d0 exts f i2)
    (fun f i2 h => shiftExtStep_shift d0 e i2 exts hmem hnd f h)
    (fun f i2 j hj hj1 => shiftExtStep_untouched d0 e i2 j hj hj1 exts f d0)
    (fun f i2 => shiftExtStep_cleared d0 e i2 exts hmem f)
    N fs hN i hi

/-- The rename loop leaves indices above the processed range alone. -/
theorem descLoop_shiftExt_untouched_hi (d0 e : String) (exts : List String)
    (N : Nat) (fs : FileSystem) (j : Nat) (hj : N < j) :
    alGet (descLoop (fun f i2 => shiftExtStep d0 exts f i2) fs N) (d0, j, e)
      = alGet fs (d0, j, e) :=
  descLoop_untouched (fun k => (d0, k, e))
    (fun f i2 => shiftExtStep d0 exts f i2)
    (fun f i2 j2 h h1 => shiftExtStep_untouched d0 e i2 j2 h h1 exts f d0)
    N fs j hj

/-- C5: injecting the executive summary at the front of a fully indexed
run shifts everything by exactly one and is idempotent: checkpoint key i
moves to i + 1 and key 0 becomes a fresh record marked parsed and
cleaned; position 0 of the returned list is the sentinel-titled summary
unit with index 0 and every index again equals its position; every
artifact formerly at chapter_i now sits at chapter_{i+1} (the parsed
json additionally with its embedded index rewritten), so the descending
shift overwrote no unshifted artifact; and a second invocation on the
result is a no-op. -/
theorem summary_injection_reindex (summary_text : String)
    (chapterJson : Chapter → String) (updIndex : Nat → String → String)
    (chapters : List Chapter) (cp : Checkpoint) (fs : FileSystem)
    (hguard : summaryAlready chapters = false)
    (hsum : isBlank summary_text = false)
    (hidx : ∀ (i : Nat) (hi : i < chapters.length),
      (chapters.get ⟨i, hi⟩).index = i)
    (hkeys_hi : ∀ k, chapters.length ≤ k → alGet cp.chapters k = none)
    (hkeys_lo : ∀ i, i < chapters.length →
      (alGet cp.chapters i).isSome = true)
    (hfs : ∀ (d0 e : String) (k : Nat), chapters.length ≤ k →
      alGet fs (d0, k, e) = none) :
    (generate_and_inject_summary summary_text chapterJson updIndex chapters
        cp fs).1
      = summaryChapter summary_text ::
          chapters.map (fun ch => { ch with index := ch.index + 1 }) ∧
    (summaryChapter summary_text).index = 0 ∧
    (summaryChapter summary_text).title = "Executive Summary" ∧
    (∀ (i : Nat) (hi : i < (generate_and_inject_summary summary_text
        chapterJson updIndex chapters cp fs).1.length),
      ((generate_and_inject_summary summary_text chapterJson updIndex
          chapters cp fs).1.get ⟨i, hi⟩).index = i) ∧
    alGet (generate_and_inject_summary summary_text chapterJson updIndex
        chapters cp fs).2.1.chapters 0
      = some { parsed := true, cleaned := true, chunked := false,
               synthesized := false, extra := [] } ∧
    (∀ i, i < chapters.length →
      alGet (generate_and_inject_summary summary_text chapterJson updIndex
          chapters cp fs).2.1.chapters (i + 1) = alGet cp.chapters i) ∧
    (∀ i, i < chapters.length →
      (alGet (generate_and_inject_summary summary_text chapterJson updIndex
          chapters cp fs).2.1.chapters (i + 1)).isSome = true) ∧
    (∀ k, chapters.length + 1 ≤ k →
      alGet (generate_and_inject_summary summary_text chapterJson updIndex
          chapters cp fs).2.1.chapters k = none) ∧
    (generate_and_inject_summary summary_text chapterJson updIndex chapters
        cp fs).2.1.total_chapters = chapters.length + 1 ∧
    (∀ i, i < chapters.length →
      alGet (generate_and_inject_summary summary_text chapterJson updIndex
          chapters cp fs).2.2 ("parsed", i + 1, ".md")
        = alGet fs ("parsed", i, ".md") ∧
      alGet (generate_and_inject_summary summary_text chapterJson updIndex
          chapters cp fs).2.2 ("parsed", i + 1, ".json")
        = (alGet fs ("parsed", i, ".json")).map (updIndex (i + 1)) ∧
      alGet (generate_and_inject_summary summary_text chapterJson updIndex
          chapters cp fs).2.2 ("cleaned", i + 1, ".txt")
        = alGet fs ("cleaned", i, ".txt") ∧
      alGet (generate_and_inject_summary summary_text chapterJson updIndex
          chapters cp fs).2.2 ("chunks", i + 1, ".json")
        = alGet fs ("chunks", i, ".json") ∧
      alGet (generate_and_inject_summary summary_text chapterJson updIndex
          chapters cp fs).2.2 ("audio", i + 1, ".mp3")
        = alGet fs ("audio", i, ".mp3") ∧
      alGet (generate_and_inject_summary summary_text chapterJson updIndex
          chapters cp fs).2.2 ("audio", i + 1, "")
        = alGet fs ("audio", i, "")) ∧
    (∀ (s2 : String) (cj2 : Chapter → String) (ui2 : Nat → String → String),
      generate_and_inject_summary s2 cj2 ui2
          (generate_and_inject_summary summary_text chapterJson updIndex
            chapters cp fs).1
          (generate_and_inject_summary summary_text chapterJson updIndex
            chapters cp fs).2.1
          (generate_and_inject_summary summary_text chapterJson updIndex
            chapters cp fs).2.2
        = generate_and_inject_summary summary_text chapterJson updIndex
            chapters cp fs) := by
  have hS0 : alGet (_shift_checkpoint_entries cp
      chapters.length).chapters 0 = none := by
    unfold _shift_checkpoint_entries
    dsimp only
    rcases hNn : chapters.length with _ | n
    · exact hkeys_hi 0 (by omega)
    · exact descLoop_cleared (fun k => k) (fun d i2 => alMove d i2 (i2 + 1))
        (fun d i2 => alGet_alMove_src d i2 (i2 + 1) (by omega)) n cp.chapters
  have hshiftCp : ∀ i, i < chapters.length →
      alGet (_shift_checkpoint_entries cp chapters.length).chapters (i + 1)
        = alGet cp.chapters i := by
    intro i hi
    unfold _shift_checkpoint_entries
    dsimp only
    exact descLoop_shift (fun k => k) (fun d i2 => alMove d i2 (i2 + 1))
      (fun d i2 h => alGet_alMove_dst d i2 (i2 + 1) h)
      (fun d i2 j h1 h2 => alGet_alMove_other d i2 (i2 + 1) j h1 h2)
      (fun d i2 => alGet_alMove_src d i2 (i2 + 1) (by omega))
      chapters.length cp.chapters (hkeys_hi chapters.length le_rfl) i hi
  have hhiCp : ∀ k, chapters.length + 1 ≤ k →
      alGet (_shift_checkpoint_entries cp chapters.length).chapters k
        = none := by
    intro k hk
    unfold _shift_checkpoint_entries
    dsimp only
    rw [descLoop_untouched (fun k2 => k2) (fun d i2 => alMove d i2 (i2 + 1))
      (fun d i2 j h1 h2 => alGet_alMove_other d i2 (i2 + 1) j h1 h2)
      chapters.length cp.chapters k (by omega)]
    exact hkeys_hi k (by omega)
  rw [generate_summary_eq summary_text chapterJson updIndex chapters cp fs
    hguard hsum]
  dsimp only
  refine ⟨rfl, rfl, rfl, ?_, ?_, ?_, ?_, ?_, rfl, ?_, ?_⟩
  · -- positions and indices agree again
    intro i hi
    cases i with
    | zero => rfl
    | succ j =>
      have hj : j < chapters.length := by
        have hlen := hi
        simp only [List.length_cons, List.length_map] at hlen
        omega
      show ((chapters.map
          (fun ch : Chapter => { ch with index := ch.index + 1 })).get
        ⟨j, by simp only [List.length_map]; exact hj⟩).index = j + 1
      rw [List.get_map]
      dsimp only
      rw [hidx j hj]
  · -- the fresh key 0, marked parsed and cleaned
    rw [mark_get_self, mark_get_self, hS0]
    rfl
  · -- key i moved to i + 1
    intro i hi
    rw [mark_get_ne _ _ _ _ (by omega), mark_get_ne _ _ _ _ (by omega)]
    exact hshiftCp i hi
  · -- keys 1 .. N are all present
    intro i hi
    rw [mark_get_ne _ _ _ _ (by omega), mark_get_ne _ _ _ _ (by omega),
      hshiftCp i hi]
    exact hkeys_lo i hi
  · -- no keys above the shifted range
    intro k hk
    rw [mark_get_ne _ _ _ _ (by omega), mark_get_ne _ _ _ _ (by omega)]
    exact hhiCp k hk
  · -- artifact files shifted, none overwritten
    intro i hi
    have hPmd : alGet (_shift_chapter_files chapters.length fs)
        ("parsed", i + 1, ".md") = alGet fs ("parsed", i, ".md") := by
      unfold _shift_chapter_files
      dsimp only
      rw [descLoop_shiftExt_other_dir "audio" [".mp3", ""] "parsed"
          (by decide),
        descLoop_shiftExt_other_dir "chunks" [".json"] "parsed" (by decide),
        descLoop_shiftExt_other_dir "cleaned" [".txt"] "parsed" (by decide),
        descLoop_shiftExt_family "parsed" ".md" [".md", ".json"] (by decide)
          (by decide) chapters.length fs
          (hfs "parsed" ".md" chapters.length le_rfl) i hi]
    have hPjs : alGet (_shift_chapter_files chapters.length fs)
        ("parsed", i + 1, ".json") = alGet fs ("parsed", i, ".json") := by
      unfold _shift_chapter_files
      dsimp only
      rw [descLoop_shiftExt_other_dir "audio" [".mp3", ""] "parsed"
          (by decide),
        descLoop_shiftExt_other_dir "chunks" [".json"] "parsed" (by decide),
        descLoop_shiftExt_other_dir "cleaned" [".txt"] "parsed" (by decide),
        descLoop_shiftExt_family "parsed" ".json" [".md", ".json"]
          (by decide) (by decide) chapters.length fs
          (hfs "parsed" ".json" chapters.length le_rfl) i hi]
    have hCl : alGet (_shift_chapter_files chapters.length fs)
        ("cleaned", i + 1, ".txt") = alGet fs ("cleaned", i, ".txt") := by
      unfold _shift_chapter_files
      dsimp only
      rw [descLoop_shiftExt_other_dir "audio" [".mp3", ""] "cleaned"
          (by decide),
        descLoop_shiftExt_other_dir "chunks" [".json"] "cleaned" (by decide),
        descLoop_shiftExt_family "cleaned" ".txt" [".txt"] (by decide)
          (by decide) chapters.length _
          (by rw [descLoop_shiftExt_other_dir "parsed" [".md", ".json"]
              "cleaned" (by decide)]
              exact hfs "cleaned" ".txt" chapters.length le_rfl) i hi,
        descLoop_shiftExt_other_dir "parsed" [".md", ".json"] "cleaned"
          (by decide)]
    have hCh : alGet (_shift_chapter_files chapters.length fs)
        ("chunks", i + 1, ".json") = alGet fs ("chunks", i, ".json") := by
      unfold _shift_chapter_files
      dsimp only
      rw [descLoop_shiftExt_other_dir "audio" [".mp3", ""] "chunks"
          (by decide),
        descLoop_shiftExt_family "chunks" ".json" [".json"] (by decide)
          (by decide) chapters.length _
          (by rw [descLoop_shiftExt_other_dir "cleaned" [".txt"] "chunks"
                (by decide),
              descLoop_shiftExt_other_dir "parsed" [".md", ".json"] "chunks"
                (by decide)]
              exact hfs "chunks" ".json" chapters.length le_rfl) i hi,
        descLoop_shiftExt_other_dir "cleaned" [".txt"] "chunks" (by decide),
        descLoop_shiftExt_other_dir "parsed" [".md", ".json"] "chunks"
          (by decide)]
    have hAuPre : ∀ e2 : String, alGet (descLoop
        (fun f i2 => shiftExtStep "chunks" [".json"] f i2)
        (descLoop (fun f i2 => shiftExtStep "cleaned" [".txt"] f i2)
          (descLoop (fun f i2 => shiftExtStep "parsed" [".md", ".json"] f i2)
            fs chapters.length) chapters.length) chapters.length)
        ("audio", chapters.length, e2) = none := by
      intro e2
      rw [descLoop_shiftExt_other_dir "chunks" [".json"] "audio" (by decide),
        descLoop_shiftExt_other_dir "cleaned" [".txt"] "audio" (by decide),
        descLoop_shiftExt_other_dir "parsed" [".md", ".json"] "audio"
          (by decide)]
      exact hfs "audio" e2 chapters.length le_rfl
    have hAu : alGet (_shift_chapter_files chapters.length fs)
        ("audio", i + 1, ".mp3") = alGet fs ("audio", i, ".mp3") := by
      unfold _shift_chapter_files
      dsimp only
      rw [descLoop_shiftExt_family "audio" ".mp3" [".mp3", ""] (by decide)
          (by decide) chapters.length _ (hAuPre ".mp3") i hi,
        descLoop_shiftExt_other_dir "chunks" [".json"] "audio" (by decide),
        descLoop_shiftExt_other_dir "cleaned" [".txt"] "audio" (by decide),
        descLoop_shiftExt_other_dir "parsed" [".md", ".json"] "audio"
          (by decide)]
    have hAuD : alGet (_shift_chapter_files chapters.length fs)
        ("audio", i + 1, "") = alGet fs ("audio", i, "") := by
      unfold _shift_chapter_files
      dsimp only
      rw [descLoop_shiftExt_family "audio" "" [".mp3", ""] (by decide)
          (by decide) chapters.length _ (hAuPre "") i hi,
        descLoop_shiftExt_other_dir "chunks" [".json"] "audio" (by decide),
        descLoop_shiftExt_other_dir "cleaned" [".txt"] "audio" (by decide),
        descLoop_shiftExt_other_dir "parsed" [".md", ".json"] "audio"
          (by decide)]
    refine ⟨?_, ?_, ?_, ?_, ?_, ?_⟩
    · rw [alGet_alSet_ne _ _ _ _ (artifactKey_ne_of_dir (by decide)),
        alGet_alSet_ne _ _ _ _ (artifactKey_ne_of_ext (by decide)),
        alGet_alSet_ne _ _ _ _ (artifactKey_ne_of_index (by omega)),
        updLoop_untouched_key updIndex _
          (fun m => artifactKey_ne_of_ext (by decide))]
      exact hPmd
    · rw [alGet_alSet_ne _ _ _ _ (artifactKey_ne_of_dir (by decide)),
        alGet_alSet_ne _ _ _ _ (artifactKey_ne_of_index (by omega)),
        alGet_alSet_ne _ _ _ _ (artifactKey_ne_of_ext (by decide)),
        updLoop_get updIndex (i + 1) chapters.length (by omega) (by omega),
        hPjs]
    · rw [alGet_alSet_ne _ _ _ _ (artifactKey_ne_of_index (by omega)),
        alGet_alSet_ne _ _ _ _ (artifactKey_ne_of_dir (by decide)),
        alGet_alSet_ne _ _ _ _ (artifactKey_ne_of_dir (by decide)),
        updLoop_untouched_key updIndex _
          (fun m => artifactKey_ne_of_dir (by decide))]
      exact hCl
    · rw [alGet_alSet_ne _ _ _ _ (artifactKey_ne_of_dir (by decide)),
        alGet_alSet_ne _ _ _ _ (artifactKey_ne_of_dir (by decide)),
        alGet_alSet_ne _ _ _ _ (artifactKey_ne_of_dir (by decide)),
        updLoop_untouched_key updIndex _
          (fun m => artifactKey_ne_of_dir (by decide))]
      exact hCh
    · rw [alGet_alSet_ne _ _ _ _ (artifactKey_ne_of_dir (by decide)),
        alGet_alSet_ne _ _ _ _ (artifactKey_ne_of_dir (by decide)),
        alGet_alSet_ne _ _ _ _ (artifactKey_ne_of_dir (by decide)),
        updLoop_untouched_key updIndex _
          (fun m => artifactKey_ne_of_dir (by decide))]
      exact hAu
    · rw [alGet_alSet_ne _ _ _ _ (artifactKey_ne_of_dir (by decide)),
        alGet_alSet_ne _ _ _ _ (artifactKey_ne_of_dir (by decide)),
        alGet_alSet_ne _ _ _ _ (artifactKey_ne_of_dir (by decide)),
        updLoop_untouched_key updIndex _
          (fun m => artifactKey_ne_of_dir (by decide))]
      exact hAuD
  · -- the precondition guard makes a second invocation a no-op
    intro s2 cj2 ui2
    unfold generate_and_inject_summary
    rw [if_pos (by rfl)]

/-- C5 witness at a concrete instance. -/
theorem summary_injection_reindex_witness :
    (summaryAlready sampleChapters5 = false ∧
      isBlank "Summary body" = false ∧
      (∀ (i : Nat) (hi : i < sampleChapters5.length),
        (sampleChapters5.get ⟨i, hi⟩).index = i) ∧
      (∀ k, sampleChapters5.length ≤ k →
        alGet sampleCp5.chapters k = none) ∧
      (∀ i, i < sampleChapters5.length →
        (alGet sampleCp5.chapters i).isSome = true) ∧
      (∀ (d0 e : String) (k : Nat), sampleChapters5.length ≤ k →
        alGet sampleFs5 (d0, k, e) = none)) ∧
    alGet (generate_and_inject_summary "Summary body" sampleJson sampleUpd
        sampleChapters5 sampleCp5 sampleFs5).2.1.chapters 1
      = alGet sampleCp5.chapters 0 ∧
    alGet (generate_and_inject_summary "Summary body" sampleJson sampleUpd
        sampleChapters5 sampleCp5 sampleFs5).2.1.chapters 0
      = some { parsed := true, cleaned := true, chunked := false,
               synthesized := false, extra := [] } ∧
    alGet (generate_and_inject_summary "Summary body" sampleJson sampleUpd
        sampleChapters5 sampleCp5 sampleFs5).2.2 ("cleaned", 1, ".txt")
      = alGet sampleFs5 ("cleaned", 0, ".txt") := by
  have hidx : ∀ (i : Nat) (hi : i < sampleChapters5.length),
      (sampleChapters5.get ⟨i, hi⟩).index = i := by
    intro i hi
    match i, hi with
    | 0, _ => rfl
  have hkeys_hi : ∀ k, sampleChapters5.length ≤ k →
      alGet sampleCp5.chapters k = none := by
    intro k hk
    have hk1 : 1 ≤ k := hk
    simp only [sampleCp5, alGet]
    rw [if_neg (by omega)]
  have hkeys_lo : ∀ i, i < sampleChapters5.length →
      (alGet sampleCp5.chapters i).isSome = true := by
    intro i hi
    have hi1 : i < 1 := hi
    have hi0 : i = 0 := by omega
    subst hi0
    decide
  have hfs : ∀ (d0 e : String) (k : Nat), sampleChapters5.length ≤ k →
      alGet sampleFs5 (d0, k, e) = none := by
    intro d0 e k hk
    have hk1 : 1 ≤ k := hk
    simp only [sampleFs5, alGet]
    rw [if_neg (fun hEq => by
      have h0 : (0 : Nat) = k := congrArg (fun q => q.2.1) hEq
      omega)]
  have T := summary_injection_reindex "Summary body" sampleJson sampleUpd
    sampleChapters5 sampleCp5 sampleFs5 (by decide) (by decide) hidx hkeys_hi
    hkeys_lo hfs
  refine ⟨⟨by decide, by decide, hidx, hkeys_hi, hkeys_lo, hfs⟩, ?_, ?_, ?_⟩
  · exact T.2.2.2.2.2.1 0 (by decide)
  · exact T.2.2.2.2.1
  · exact (T.2.2.2.2.2.2.2.2.2.1 0 (by decide)).2.2.1

end Pdf2Audiobook

